import Mathlib

/-!
Verification development for the dashcam-processor pipeline core.

The definitions below are shallow embeddings of the Python sources under
`src/pipeline/` (file and symbol names are noted at each definition).
Python dicts keyed by strings are modelled as functions `String → Option _`
(`none` = key absent, `some Val.vnone` = key present with value `None`);
`multiprocessing` locks disappear in the sequential model (one critical
section = one Lean function application); floats that only ever hold
config ratios / confidences are modelled as `ℚ`.
-/

namespace Dashcam

/-- Python values that appear in `Task.meta` dictionaries and in dict-shaped
payloads.  `vnone` is Python `None` stored as a value; absence of a key is
`Option.none` at the `Meta` level. -/
inductive Val where
  | vnone : Val
  | vstr  : String → Val
  | vint  : Int → Val
  | vrat  : ℚ → Val
  | vstrs : List String → Val
  | vrats : List ℚ → Val
  deriving DecidableEq, Repr

/-- Python truthiness for the values of `Val` (used by `or` fallbacks such as
`task.meta.get("dependencies") or ...` in `dispatch_handlers.py`). -/
def Val.truthy : Val → Bool
  | .vnone    => false
  | .vstr s   => !s.isEmpty
  | .vint n   => n != 0
  | .vrat q   => q != 0
  | .vstrs l  => !l.isEmpty
  | .vrats l  => !l.isEmpty

/-- A Python string-keyed dict. -/
abbrev Meta := String → Option Val

/-- The empty dict. -/
def Meta.empty : Meta := fun _ => none

/-- Dict update at one key (`d[k] = v`). -/
def Meta.set (m : Meta) (k : String) (v : Val) : Meta :=
  fun k' => if k' = k then some v else m k'

/-- `pipeline/task.py`, `TaskCategory` together with
`pipeline/categories.py`.  `task.py` declares the first six members
(`VEHICLE_DETECT, PLATE_DETECT, OCR, PLATE_SMOOTH, SUMMARY, FINAL_WRITE`);
`categories.py` and `dispatch_handlers.py` additionally reference
`TaskCategory.VEHICLE_TRACK`, which the claims and the spec treat as a
member, so the embedding includes it. -/
inductive TaskCategory where
  | VEHICLE_DETECT
  | PLATE_DETECT
  | OCR
  | VEHICLE_TRACK
  | PLATE_SMOOTH
  | SUMMARY
  | FINAL_WRITE
  deriving DecidableEq, Repr

open TaskCategory

/-- `pipeline/categories.py`, `gpu_categories` (declaration order matters for
the busiest-first scan). -/
def gpu_categories : List TaskCategory := [VEHICLE_DETECT, PLATE_DETECT, OCR]

/-- `pipeline/categories.py`, `cpu_categories`. -/
def cpu_categories : List TaskCategory :=
  [VEHICLE_TRACK, PLATE_SMOOTH, SUMMARY, FINAL_WRITE]

/-- One vehicle/plate detection dict `{bbox, conf, track_id?}` as produced by
the detector processors and consumed by `dispatch_handlers.py`. -/
structure Detection where
  bbox : List ℚ
  conf : ℚ
  track_id : Option Int := none
  deriving DecidableEq, Repr

/-- `Task.payload`: per-category payload shapes used by the embedded code
paths (a raw frame for VEHICLE_DETECT, a string-keyed dict for the
ROI/OCR/smooth stages, a detection list for VEHICLE_TRACK). -/
inductive Payload where
  | nd     : List Nat → Payload          -- np.ndarray frame, as opaque bytes
  | pdict  : Meta → Payload              -- dict payload
  | plist  : List Detection → Payload    -- list-of-dicts payload
  | pfinal : String → Meta → Payload     -- FINAL_WRITE payload {table, record}

/-- `pipeline/task.py`, `Task` dataclass. -/
structure Task where
  category : TaskCategory
  payload : Payload
  priority : Int := 0
  video_id : Option String := none
  frame_idx : Option Int := none
  track_id : Option Int := none
  meta : Meta := Meta.empty

/-! ## Frame store (`pipeline/frame_store.py`)

State: the set of refs whose frame bytes exist on disk (`disk`), and the
shared refcount table (`counts`, a dict ref → count; `none` = no entry).
The `_refcounts is None` / `ref is None` guards and the logging are dropped:
the embedding models an initialised store operating on plain string refs. -/

structure FrameStoreState where
  disk : String → Bool
  counts : String → Option Nat

/-- The store at process start: no frames, empty refcount table. -/
def FrameStoreState.empty : FrameStoreState :=
  { disk := fun _ => false, counts := fun _ => none }

/-- `frame_store.save_frame`: writes the frame bytes under the derived ref
and returns the ref.  It does not touch the refcount table. -/
def save_frame (s : FrameStoreState) (video_id : String) (frame_idx : Nat) :
    FrameStoreState × String :=
  let ref := video_id ++ ":" ++ toString frame_idx
  ({ s with disk := fun r => if r = ref then true else s.disk r }, ref)

/-- `frame_store.delete_frame`: unconditional removal of the frame bytes. -/
def delete_frame (disk : String → Bool) (ref : String) : String → Bool :=
  fun r => if r = ref then false else disk r

/-- `frame_store.add_refs`: one pass of the loop body per ref, inside a
single critical section. -/
def add_refs (s : FrameStoreState) (refs : List String) : FrameStoreState :=
  match refs with
  | [] => s
  | ref :: rest =>
      let current := (s.counts ref).getD 0
      add_refs
        { s with counts := fun r => if r = ref then some (current + 1) else s.counts r }
        rest

/-- The in-lock loop of `frame_store.release_refs`: decrement each ref,
popping the entry and recording the ref in `to_delete` when the current
count is ≤ 1 (including absent refs, whose `get(ref, 0)` is 0). -/
def release_loop (counts : String → Option Nat) (refs : List String)
    (to_delete : List String) : (String → Option Nat) × List String :=
  match refs with
  | [] => (counts, to_delete)
  | ref :: rest =>
      let current := (counts ref).getD 0
      if current ≤ 1 then
        release_loop (fun r => if r = ref then none else counts r) rest
          (to_delete ++ [ref])
      else
        release_loop (fun r => if r = ref then some (current - 1) else counts r) rest
          to_delete

/-- `frame_store.release_refs`: run the in-lock loop, then (after leaving
the lock) `delete_frame` every ref whose count reached zero. -/
def release_refs (s : FrameStoreState) (refs : List String) : FrameStoreState :=
  let (counts', to_delete) := release_loop s.counts refs []
  { counts := counts',
    disk := to_delete.foldl delete_frame s.disk }

/-- Frame-store operations, for stating reachability from the empty store. -/
inductive FSOp where
  | save : String → Nat → FSOp
  | add : List String → FSOp
  | release : List String → FSOp

/-- Apply one frame-store operation. -/
def FSOp.apply (s : FrameStoreState) : FSOp → FrameStoreState
  | .save v i => (save_frame s v i).1
  | .add refs => add_refs s refs
  | .release refs => release_refs s refs

/-- Run a sequence of frame-store operations from a starting state. -/
def runFSOps (s : FrameStoreState) (ops : List FSOp) : FrameStoreState :=
  ops.foldl FSOp.apply s

/-- Spec §4.2 invariant (c): a frame's bytes exist iff its ref is in the
refcount table with count ≥ 1. -/
def FrameStoreInv (s : FrameStoreState) : Prop :=
  ∀ r, s.disk r = true ↔ ∃ c, s.counts r = some c ∧ 1 ≤ c

/-- The refcount table holds no entry with count 0. -/
def NoZeroEntry (s : FrameStoreState) : Prop :=
  ∀ r c, s.counts r = some c → 1 ≤ c

/-- The reader-intended pairing: persist the frame, then take the first
reference on the returned ref (spec §4.3; no single source function does
both — see `C2_counterexample`). -/
def save_then_add (s : FrameStoreState) (video_id : String) (frame_idx : Nat) :
    FrameStoreState :=
  let (s', ref) := save_frame s video_id frame_idx
  add_refs s' [ref]

/-- Mid-loop invariant of `release_refs`: bytes on disk are accounted for
either by a live refcount entry or by a pending deletion, live entries
still have bytes, and popped refs have no entry. -/
def InvAux (counts : String → Option Nat) (disk : String → Bool)
    (td : List String) : Prop :=
  (∀ r, disk r = true → 1 ≤ (counts r).getD 0 ∨ r ∈ td) ∧
  (∀ r, 1 ≤ (counts r).getD 0 → disk r = true) ∧
  (∀ r ∈ td, counts r = none)

/-! ## Central task queue (`pipeline/queues.py`, `CentralTaskQueue`)

Per-category state: the backing `multiprocessing.Queue` contents (`items`,
head = front), the shared counter `_counts[cat]` (`count`), and the
`_backed_up[cat]` flag.  The whole queue is a function from category to
this state plus the per-category limits.  All operations run under the one
`self._lock`, so the sequential model applies them atomically.

The `except Full` branch of `push` is unreachable in this model: under the
lock `_counts[cat]` equals the queue length (proved below for reachable
states), the backing queue's `maxsize` is the hard limit (or unbounded when
the hard limit is absent or 0), and `push` already returned `False` when
`count >= hard`; so `put_nowait` always succeeds when reached. -/

structure CatQueueState where
  items : List (Int × Task)
  count : Nat
  backedUp : Bool

/-- Per-category limits and the recovery ratio (constructor arguments of
`CentralTaskQueue`; `recover_ratio` defaults to 0.8 = 4/5). -/
structure QueueConfig where
  soft : TaskCategory → Option Nat
  hard : TaskCategory → Option Nat
  recover_ratio : ℚ := 4/5

abbrev QueueState := TaskCategory → CatQueueState

/-- The queue as constructed: every category empty, counter 0, flag clear. -/
def QueueState.init : QueueState :=
  fun _ => { items := [], count := 0, backedUp := false }

/-- The recovery point `int(soft * recover_ratio)`: Python's `int()` on the
non-negative float product truncates, i.e. takes the floor.  Computed on
the ratio's numerator/denominator so that it evaluates by kernel
reduction; `recoverPoint_eq_floor` below shows it is exactly
`⌊soft * recover_ratio⌋` for a non-negative ratio. -/
def recoverPoint (cfg : QueueConfig) (soft : Nat) : Nat :=
  ((soft : Int) * cfg.recover_ratio.num).toNat / cfg.recover_ratio.den

/-- `CentralTaskQueue._update_flags` for one category (only ever called from
`pop`): at or above the soft limit the flag is set; at or below
`int(soft * recover_ratio)` it is cleared; in between it is left alone. -/
def update_flags (cfg : QueueConfig) (cat : TaskCategory) (q : CatQueueState) :
    CatQueueState :=
  match cfg.soft cat with
  | none => q
  | some soft =>
      if soft ≤ q.count then { q with backedUp := true }
      else if q.count ≤ recoverPoint cfg soft then
        { q with backedUp := false }
      else q

/-- `CentralTaskQueue.push`: refuse (and set the flag) when the counter is
at or above the hard limit; otherwise append at the tail, bump the counter,
and set the flag when the new counter reaches the soft limit. -/
def push (cfg : QueueConfig) (st : QueueState) (task_id : Int) (task : Task) :
    Bool × QueueState :=
  let cat := task.category
  let q := st cat
  let refuse : Bool :=
    match cfg.hard cat with
    | some hard => hard ≤ q.count
    | none => false
  if refuse then
    (false, fun c => if c = cat then { q with backedUp := true } else st c)
  else
    let q' : CatQueueState :=
      { items := q.items ++ [(task_id, task)]
        count := q.count + 1
        backedUp :=
          match cfg.soft cat with
          | some soft => if soft ≤ q.count + 1 then true else q.backedUp
          | none => q.backedUp }
    (true, fun c => if c = cat then q' else st c)

/-- `CentralTaskQueue.pop`: non-blocking FIFO; on success decrement the
counter (clamped at 0) and re-evaluate the backed-up flag. -/
def pop (cfg : QueueConfig) (st : QueueState) (cat : TaskCategory) :
    Option (Task × Int) × QueueState :=
  match (st cat).items with
  | [] => (none, st)
  | (task_id, task) :: rest =>
      let q' : CatQueueState :=
        update_flags cfg cat
          { items := rest
            count := (st cat).count - 1
            backedUp := (st cat).backedUp }
      (some (task, task_id), fun c => if c = cat then q' else st c)

/-- Queue operations, for reachability from the initial state. -/
inductive QOp where
  | push : Int → Task → QOp
  | pop : TaskCategory → QOp

/-- Apply one queue operation (discarding the returned value). -/
def QOp.apply (cfg : QueueConfig) (st : QueueState) : QOp → QueueState
  | .push id t => (Dashcam.push cfg st id t).2
  | .pop cat => (Dashcam.pop cfg st cat).2

/-- Run a sequence of queue operations from the initial state. -/
def runQOps (cfg : QueueConfig) (ops : List QOp) : QueueState :=
  ops.foldl (QOp.apply cfg) QueueState.init

/-- Consistency of the shared counter with the backing queue, plus the
depth bound: both hold at every reachable state. -/
def QueueInv (cfg : QueueConfig) (st : QueueState) : Prop :=
  ∀ cat, (st cat).count = (st cat).items.length ∧
    (∀ h, cfg.hard cat = some h → (st cat).count ≤ h)

/-! ## Busiest-first category selection
(`pipeline/workers/gpu_worker.py`, `GPUWorkerProcess._choose_busiest_gpu_category`
and `pipeline/workers/cpu_worker_mp.py`,
`CPUWorkerProcess._choose_busiest_cpu_category`; both bodies are identical
up to the lane list).  `backlog` abstracts `self.task_queue.backlog`.
The function reads nothing but the lane list and the backlogs; in
particular it does not read `self.current_category`. -/

def choose_busiest_loop (backlog : TaskCategory → Nat)
    (cats : List TaskCategory) (best : Option TaskCategory × Nat) :
    Option TaskCategory × Nat :=
  match cats with
  | [] => best
  | cat :: rest =>
      if best.2 < backlog cat then
        choose_busiest_loop backlog rest (some cat, backlog cat)
      else
        choose_busiest_loop backlog rest best

/-- The worker's category scan: strict-greater updates starting from size 0,
returning the best category only when its backlog is positive. -/
def choose_busiest (cats : List TaskCategory) (backlog : TaskCategory → Nat) :
    Option TaskCategory :=
  let best := choose_busiest_loop backlog cats (none, 0)
  if 0 < best.2 then best.1 else none

/-- `GPUWorkerProcess._choose_busiest_gpu_category` with the lane list the
worker is constructed with in `main.py` (`categories.gpu_categories`). -/
def choose_busiest_gpu_category (backlog : TaskCategory → Nat) :
    Option TaskCategory :=
  choose_busiest gpu_categories backlog

/-- `CPUWorkerProcess._choose_busiest_cpu_category` with
`categories.cpu_categories`. -/
def choose_busiest_cpu_category (backlog : TaskCategory → Nat) :
    Option TaskCategory :=
  choose_busiest cpu_categories backlog

/-- The largest backlog among a list of categories (0 when empty). -/
def maxB (cats : List TaskCategory) (backlog : TaskCategory → Nat) : Nat :=
  cats.foldr (fun c m => Nat.max (backlog c) m) 0

/-! ## Dispatch handlers (`pipeline/dispatch_handlers.py`) -/

/-- `_PASS_THROUGH_META_KEYS`. -/
def PASS_THROUGH_META_KEYS : List String :=
  ["video_path", "video_filename", "video_ts_frame", "global_id"]

/-- `_merge_meta`: build `base` from the parent's meta restricted to the
pass-through keys, then `base.update(updates)`.  A key present in the
`updates` dict always wins (even when its value is Python `None`,
i.e. `some Val.vnone`); any other key survives only if it is one of the
four pass-through keys. -/
def merge_meta (meta : Meta) (updates : Meta) : Meta :=
  fun k =>
    match updates k with
    | some v => some v
    | none => if PASS_THROUGH_META_KEYS.contains k then meta k else none

/-- Python f-string rendering of an optional string (`None` prints as
"None"), used for `f"{video_id}:{track_id}"`. -/
def pyStr : Option String → String
  | some s => s
  | none => "None"

/-- `dependencies = task.meta.get("dependencies") or ([payload_ref] if
payload_ref else [])` — shared by every handler.  The `dependencies` key,
when set by this pipeline, always holds a list of refs; the falsy cases

(absent key, `None`, empty list) fall back to the payload ref. -/
def meta_dependencies (m : Meta) : List String :=
  let fallback : List String :=
    match m "payload_ref" with
    | some (Val.vstr r) => if r.isEmpty then [] else [r]
    | _ => []
  match m "dependencies" with
  | some (Val.vstrs rs) => if rs.isEmpty then fallback else rs
  | _ => fallback

/-- Observable actions of a handler / worker body, in program order. -/
inductive Effect where
  | addRefsE : List String → Effect
  | pushTaskE : Task → Effect            -- push_with_backpressure (retries until accepted)
  | releaseRefsE : List String → Effect
  | dbSaveResultE : Effect               -- db.save_result (GPU worker)
  | dbMarkDoneE : Effect                 -- db.mark_task_done (GPU worker)

/-- The `PLATE_DETECT` child built for one detection inside
`handle_vehicle_detect_result`. -/
def plate_detect_child (task : Task) (det : Detection)
    (payload_ref : Option Val) (dependencies : List String) : Task :=
  let track_id : Option Int := det.track_id.or task.track_id
  let global_id : Val :=
    match det.track_id with
    | some t => Val.vstr (pyStr task.video_id ++ ":" ++ toString t)
    | none => Val.vnone
  { category := PLATE_DETECT
    payload := Payload.pdict (Meta.empty.set "car_bbox" (Val.vrats det.bbox))
    priority := 0
    video_id := task.video_id
    frame_idx := task.frame_idx
    track_id := track_id
    meta := merge_meta task.meta fun k =>
      if k = "payload_ref" then some (payload_ref.getD Val.vnone)
      else if k = "car_bbox" then some (Val.vrats det.bbox)
      else if k = "dependencies" then some (Val.vstrs dependencies)
      else if k = "track_id" then
        some (match track_id with | some t => Val.vint t | none => Val.vnone)
      else if k = "global_id" then some global_id
      else none }

/-- The single `VEHICLE_TRACK` child built at the end of
`handle_vehicle_detect_result`, carrying the full detection list. -/
def vehicle_track_child (task : Task) (result_obj : List Detection)
    (payload_ref : Option Val) (dependencies : List String) : Task :=
  { category := VEHICLE_TRACK
    payload := Payload.plist result_obj
    priority := 0
    video_id := task.video_id
    frame_idx := task.frame_idx
    track_id := none
    meta := merge_meta task.meta fun k =>
      if k = "payload_ref" then some (payload_ref.getD Val.vnone)
      else if k = "dependencies" then some (Val.vstrs dependencies)
      else if k = "fps" then some ((task.meta "fps").getD Val.vnone)
      else if k = "video_fps" then some ((task.meta "video_fps").getD Val.vnone)
      else if k = "video_ts_ms" then some ((task.meta "video_ts_ms").getD Val.vnone)
      else none }

/-- `handle_vehicle_detect_result` as its trace of effects: for each
detection, `add_refs(dependencies)` then the `PLATE_DETECT` push; finally
`add_refs(dependencies)` and the one `VEHICLE_TRACK` push. -/
def handle_vehicle_detect_result (task : Task) (result_obj : List Detection) :
    List Effect :=
  let payload_ref := task.meta "payload_ref"
  let dependencies := meta_dependencies task.meta
  (result_obj.map fun det =>
      [Effect.addRefsE dependencies,
       Effect.pushTaskE (plate_detect_child task det payload_ref dependencies)]).flatten
  ++ [Effect.addRefsE dependencies,
      Effect.pushTaskE (vehicle_track_child task result_obj payload_ref dependencies)]

/-- `max(result_obj, key=lambda d: d["conf"])` on a non-empty list: Python
`max` keeps the first of equally-confident detections, which the
strict-less fold reproduces. -/
def max_by_conf (d : Detection) (rest : List Detection) : Detection :=
  rest.foldl (fun best x => if best.conf < x.conf then x else best) d

/-- A Python value that is an optional string (e.g. `task.video_id`). -/
def optStrVal : Option String → Val
  | some s => Val.vstr s
  | none => Val.vnone

/-- Python value-level `a or b`: the left operand when truthy, else the
right (used for `track.get("video_id") or task.video_id`). -/
def py_or (a b : Val) : Val :=
  if a.truthy then a else b

/-- A dict value stored into the `Task.track_id` slot
(`track_id=track.get("track_id")`); the pipeline only ever stores ints or
`None` there. -/
def valToOptInt : Val → Option Int
  | Val.vint n => some n
  | _ => none

/-- The `OCR` child built by `handle_plate_detect_result` from the
highest-confidence plate box. -/
def ocr_child (task : Task) (plate_bbox : List ℚ)
    (payload_ref car_bbox : Option Val) (dependencies : List String) : Task :=
  { category := OCR
    payload := Payload.pdict fun k =>
      if k = "plate_bbox" then some (Val.vrats plate_bbox)
      else if k = "car_bbox" then some (car_bbox.getD Val.vnone)
      else none
    priority := 0
    video_id := task.video_id
    frame_idx := task.frame_idx
    track_id := task.track_id
    meta := merge_meta task.meta fun k =>
      if k = "payload_ref" then some (payload_ref.getD Val.vnone)
      else if k = "car_bbox" then some (car_bbox.getD Val.vnone)
      else if k = "plate_bbox" then some (Val.vrats plate_bbox)
      else if k = "dependencies" then some (Val.vstrs dependencies)
      else if k = "global_id" then some ((task.meta "global_id").getD Val.vnone)
      else none }

/-- `handle_plate_detect_result` as its trace of effects
(`dispatch_handlers.py` lines 130–194): no plates means no descendants;
otherwise one `add_refs(dependencies)` then one `OCR` push for the
best-confidence plate box. -/
def handle_plate_detect_result (task : Task) (result_obj : List Detection) :
    List Effect :=
  match result_obj with
  | [] => []
  | d :: rest =>
      let payload_ref := task.meta "payload_ref"
      let car_bbox := task.meta "car_bbox"
      let dependencies := meta_dependencies task.meta
      let best := max_by_conf d rest
      [Effect.addRefsE dependencies,
       Effect.pushTaskE (ocr_child task best.bbox payload_ref car_bbox dependencies)]

/-- The one-time `FINAL_WRITE(table="tracks")` index row spawned by
`handle_vehicle_track_result` for a first-seen track.  A per-track motion
entry is a dict (`track.get(...)`), modelled as `Meta`. -/
def track_index_child (task : Task) (track : Meta)
    (payload_ref : Option Val) (dependencies : List String) : Task :=
  { category := FINAL_WRITE
    payload := Payload.pfinal "tracks" fun k =>
      if k = "global_id" then some ((track "global_id").getD Val.vnone)
      else if k = "video_id" then
        some (py_or ((track "video_id").getD Val.vnone) (optStrVal task.video_id))
      else if k = "track_id" then some ((track "track_id").getD Val.vnone)
      else if k = "first_frame_idx" then some ((track "frame_idx").getD Val.vnone)
      else if k = "video_ts_frame" then some ((track "video_ts_frame").getD Val.vnone)
      else if k = "video_ts_ms" then some ((track "video_ts_ms").getD Val.vnone)
      else if k = "video_path" then some ((task.meta "video_path").getD Val.vnone)
      else if k = "video_filename" then some ((task.meta "video_filename").getD Val.vnone)
      else none
    priority := 0
    video_id := task.video_id
    frame_idx := task.frame_idx
    track_id := valToOptInt ((track "track_id").getD Val.vnone)
    meta := merge_meta task.meta fun k =>
      if k = "dependencies" then some (Val.vstrs dependencies)
      else if k = "payload_ref" then some (payload_ref.getD Val.vnone)
      else none }

/-- The per-entry `FINAL_WRITE(table="track_motion")` row spawned by
`handle_vehicle_track_result`. -/
def motion_child (task : Task) (track : Meta)
    (payload_ref : Option Val) (dependencies : List String) : Task :=
  { category := FINAL_WRITE
    payload := Payload.pfinal "track_motion" fun k =>
      if k = "global_id" then some ((track "global_id").getD Val.vnone)
      else if k = "track_id" then some ((track "track_id").getD Val.vnone)
      else if k = "video_id" then
        some (py_or ((track "video_id").getD Val.vnone) (optStrVal task.video_id))
      else if k = "frame_idx" then some ((track "frame_idx").getD Val.vnone)
      else if k = "video_ts_frame" then some ((track "video_ts_frame").getD Val.vnone)
      else if k = "video_ts_ms" then some ((track "video_ts_ms").getD Val.vnone)
      else if k = "bbox" then some ((track "bbox").getD Val.vnone)
      else if k = "vx" then some ((track "vx").getD Val.vnone)
      else if k = "vy" then some ((track "vy").getD Val.vnone)
      else if k = "speed_px_s" then some ((track "speed_px_s").getD Val.vnone)
      else if k = "heading_deg" then some ((track "heading_deg").getD Val.vnone)
      else if k = "age_frames" then some ((track "age").getD Val.vnone)
      else if k = "conf" then some ((track "conf").getD Val.vnone)
      else if k = "video_path" then some ((task.meta "video_path").getD Val.vnone)
      else if k = "video_filename" then some ((task.meta "video_filename").getD Val.vnone)
      else none
    priority := 0
    video_id := task.video_id
    frame_idx := task.frame_idx
    track_id := valToOptInt ((track "track_id").getD Val.vnone)
    meta := merge_meta task.meta fun k =>
      if k = "dependencies" then some (Val.vstrs dependencies)
      else if k = "payload_ref" then some (payload_ref.getD Val.vnone)
      else none }

/-- `handle_vehicle_track_result` as its trace of effects
(`dispatch_handlers.py` lines 201–296): nothing for an empty result; per
track entry, a first-seen (`is_new` truthy) track gets an
`add_refs`+push of the `tracks` index row, and every entry gets an
`add_refs`+push of its `track_motion` row. -/
def handle_vehicle_track_result (task : Task) (result_obj : List Meta) :
    List Effect :=
  if result_obj.isEmpty then []
  else
    let payload_ref := task.meta "payload_ref"
    let dependencies := meta_dependencies task.meta
    (result_obj.map fun track =>
      (if ((track "is_new").getD Val.vnone).truthy then
        [Effect.addRefsE dependencies,
         Effect.pushTaskE (track_index_child task track payload_ref dependencies)]
      else []) ++
      [Effect.addRefsE dependencies,
       Effect.pushTaskE (motion_child task track payload_ref dependencies)]).flatten

/-- The `PLATE_SMOOTH` child built by `handle_ocr_result`. -/
def plate_smooth_child (task : Task) (text conf : Val)
    (payload_ref car_bbox plate_bbox : Option Val)
    (dependencies : List String) : Task :=
  { category := PLATE_SMOOTH
    payload := Payload.pdict fun k =>
      if k = "text" then some text
      else if k = "conf" then some conf
      else if k = "car_bbox" then some (car_bbox.getD Val.vnone)
      else if k = "plate_bbox" then some (plate_bbox.getD Val.vnone)
      else none
    priority := 0
    video_id := task.video_id
    frame_idx := task.frame_idx
    track_id := task.track_id
    meta := merge_meta task.meta fun k =>
      if k = "payload_ref" then some (payload_ref.getD Val.vnone)
      else if k = "car_bbox" then some (car_bbox.getD Val.vnone)
      else if k = "plate_bbox" then some (plate_bbox.getD Val.vnone)
      else if k = "dependencies" then some (Val.vstrs dependencies)
      else if k = "global_id" then some ((task.meta "global_id").getD Val.vnone)
      else none }

/-- `handle_ocr_result` as its trace of effects (`dispatch_handlers.py`
lines 303–367): an empty (falsy) text spawns nothing; otherwise one
`add_refs(dependencies)` then one `PLATE_SMOOTH` push carrying text/conf.
The OCR result dict uses `.get("text", "")` / `.get("conf", 0.0)`
defaults. -/
def handle_ocr_result (task : Task) (result_obj : Meta) : List Effect :=
  let text := (result_obj "text").getD (Val.vstr "")
  let conf := (result_obj "conf").getD (Val.vrat 0)
  if text.truthy then
    let payload_ref := task.meta "payload_ref"
    let car_bbox := task.meta "car_bbox"
    let plate_bbox := task.meta "plate_bbox"
    let dependencies := meta_dependencies task.meta
    [Effect.addRefsE dependencies,
     Effect.pushTaskE (plate_smooth_child task text conf payload_ref car_bbox
        plate_bbox dependencies)]
  else []

/-- The `FINAL_WRITE(table="vehicles")` child built by
`handle_plate_smooth_result`. -/
def vehicles_child (task : Task) (final_text conf : Val)
    (payload_ref car_bbox plate_bbox : Option Val)
    (dependencies : List String) : Task :=
  { category := FINAL_WRITE
    payload := Payload.pfinal "vehicles" fun k =>
      if k = "final_plate" then some final_text
      else if k = "plate_confidence" then some conf
      else if k = "car_bbox" then some (car_bbox.getD Val.vnone)
      else if k = "plate_bbox" then some (plate_bbox.getD Val.vnone)
      else if k = "global_id" then some ((task.meta "global_id").getD Val.vnone)
      else none
    priority := 0
    video_id := task.video_id
    frame_idx := task.frame_idx
    track_id := task.track_id
    meta := merge_meta task.meta fun k =>
      if k = "payload_ref" then some (payload_ref.getD Val.vnone)
      else if k = "car_bbox" then some (car_bbox.getD Val.vnone)
      else if k = "plate_bbox" then some (plate_bbox.getD Val.vnone)
      else if k = "dependencies" then some (Val.vstrs dependencies)
      else if k = "final" then some final_text
      else if k = "conf" then some conf
      else if k = "global_id" then some ((task.meta "global_id").getD Val.vnone)
      else none }

/-- `handle_plate_smooth_result` as its trace of effects
(`dispatch_handlers.py` lines 374–436): a null/falsy `final` spawns
nothing (insufficient history); otherwise one `add_refs(dependencies)`
then one `FINAL_WRITE(vehicles)` push.  `conf` defaults to 1.0. -/
def handle_plate_smooth_result (task : Task) (result_obj : Meta) :
    List Effect :=
  let final_text := (result_obj "final").getD Val.vnone
  if final_text.truthy then
    let payload_ref := task.meta "payload_ref"
    let car_bbox := task.meta "car_bbox"
    let plate_bbox := task.meta "plate_bbox"
    let dependencies := meta_dependencies task.meta
    let conf := (result_obj "conf").getD (Val.vrat 1)
    [Effect.addRefsE dependencies,
     Effect.pushTaskE (vehicles_child task final_text conf payload_ref car_bbox
        plate_bbox dependencies)]
  else []

/-- `handle_final_write_result` (`dispatch_handlers.py` lines 443–462):
terminal — it only logs and spawns nothing. -/
def handle_final_write_result (_task : Task) (_result_obj : Meta) :
    List Effect :=
  []

/-! ## Worker task processing (`pipeline/workers/cpu_worker_mp.py` lines
107–127 and `pipeline/workers/gpu_worker.py` lines 113–132)

One popped task's execution is modelled by its effect trace.  The CPU
worker's `try` block (processor + handler) may raise at any point, so it is
abstracted as an arbitrary trace `try_effects`; the `finally` block then
releases `task.meta.get("dependencies") or []` when that list is non-empty,
regardless of the outcome. -/

/-- `task.meta.get("dependencies") or []` as read in the CPU worker's
`finally` (no payload_ref fallback there). -/
def finally_dependencies (m : Meta) : List String :=
  match m "dependencies" with
  | some (Val.vstrs rs) => rs
  | _ => []

/-- The CPU worker's handling of one popped task: the try-block trace
followed unconditionally by the `finally` release. -/
def cpu_worker_process_task (task : Task) (try_effects : List Effect) :
    List Effect :=
  try_effects ++
    (if finally_dependencies task.meta = [] then []
     else [Effect.releaseRefsE (finally_dependencies task.meta)])

/-- The GPU worker's handling of one popped task (`gpu_worker.py` run loop):
on processor success it saves the result and marks the task done; on a
processor exception it only marks the task done.  It invokes no dispatch
handler and never touches the frame store. -/
def gpu_worker_process_task (_task : Task) (processor_raises : Bool) :
    List Effect :=
  if processor_raises then [Effect.dbMarkDoneE]
  else [Effect.dbSaveResultE, Effect.dbMarkDoneE]

/-- Number of `release_refs(refs)` calls in a trace. -/
def countReleases (effs : List Effect) (refs : List String) : Nat :=
  effs.countP fun e =>
    match e with
    | Effect.releaseRefsE rs => rs = refs
    | _ => false

/-- Number of `release_refs` calls (any argument) in a trace. -/
def countAnyRelease (effs : List Effect) : Nat :=
  effs.countP fun e =>
    match e with
    | Effect.releaseRefsE _ => true
    | _ => false

/-- The tasks pushed along a trace, in order. -/
def pushedTasks (effs : List Effect) : List Task :=
  effs.filterMap fun e =>
    match e with
    | Effect.pushTaskE t => some t
    | _ => none

/-- Refcount discipline of a handler trace: every push is immediately
preceded by an `add_refs` of exactly the pushed task's `dependencies`
meta entry. -/
def HandlerPushesRefcounted (effs : List Effect) : Prop :=
  ∀ i t, effs.get? i = some (Effect.pushTaskE t) →
    ∃ rs, 1 ≤ i ∧ effs.get? (i - 1) = some (Effect.addRefsE rs) ∧
      t.meta "dependencies" = some (Val.vstrs rs)

/-! ## Video reader (`pipeline/video_reader.py`, `VideoReader.enqueue_frame`) -/

/-- The result of one `enqueue_frame` call: the frame-store and queue states
after it, the constructed task, and the (discarded) return value of the
single `push` call. -/
structure ReaderStepResult where
  fs : FrameStoreState
  queue : QueueState
  task : Task
  push_accepted : Bool

/-- `VideoReader.enqueue_frame`: save the frame, build the `VEHICLE_DETECT`
task whose meta holds `payload_ref = ref` and `dependencies = [ref]`, and
call `self.queue.push(task_id, task)` exactly once, ignoring its return
value.  (`task_id` abstracts `self.db.save_task(task)`.)  No frame-store
refcount operation occurs. -/
def enqueue_frame (cfg : QueueConfig) (fs : FrameStoreState) (qs : QueueState)
    (video_id : String) (frame_idx : Nat) (frame : List Nat) (task_id : Int) :
    ReaderStepResult :=
  let (fs', payload_ref) := save_frame fs video_id frame_idx
  let task : Task :=
    { category := VEHICLE_DETECT
      payload := Payload.nd frame
      priority := 0
      video_id := some video_id
      frame_idx := some (frame_idx : Int)
      track_id := none
      meta := fun k =>
        if k = "payload_ref" then some (Val.vstr payload_ref)
        else if k = "dependencies" then some (Val.vstrs [payload_ref])
        else none }
  let (accepted, qs') := push cfg qs task_id task
  { fs := fs', queue := qs', task := task, push_accepted := accepted }

/-! ## Plate smoother (`pipeline/processors/plate_smooth.py`)

`_global_plate_cache` is a `defaultdict(list)` keyed by
`(task.video_id, task.track_id)`, holding `(text, conf)` observations;
`conf` may be Python `None`, so it is `Option ℚ` here.  The source also
computes a `best_base` string by `difflib` similarity and a `consensus`
list from it, but neither influences the returned value (`consensus` is
dead code, the voting below reads only the padded observations); the
embedding therefore omits the similarity computation.  The `best_base`
loop is, however, where a `None` confidence raises `TypeError` when two or
more observations exist, which the model surfaces as a `none` result. -/

abbrev SmoothKey := Option String × Option Int

abbrev PlateCache := SmoothKey → List (String × Option ℚ)

def PlateCache.empty : PlateCache := fun _ => []

/-- Keep the first-seen order of characters while accumulating their
confidence votes (the iteration/insertion order of the Python
`defaultdict(float)` at one position). -/
def add_vote (acc : List (Char × ℚ)) (ch : Char) (c : ℚ) : List (Char × ℚ) :=
  if acc.any (fun p => p.1 = ch) then
    acc.map fun p => if p.1 = ch then (p.1, p.2 + c) else p
  else acc ++ [(ch, c)]

/-- `max(votes.items(), key=lambda kv: kv[1])[0]`: Python `max` returns the
first maximal item, which the strict-less fold reproduces.  The empty case
is unreachable (each position sees at least one character). -/
def best_vote : List (Char × ℚ) → Char
  | [] => ' '
  | x :: xs => (xs.foldl (fun best kv => if best.2 < kv.2 then kv else best) x).1

/-- Python `str.strip()` (leading and trailing whitespace removed). -/
def pyStrip (s : String) : String :=
  ⟨((s.data.dropWhile Char.isWhitespace).reverse.dropWhile Char.isWhitespace).reverse⟩

/-- `_merge_strings` on observations with present confidences: the
single-observation early return, else per-position confidence-weighted
voting over the observations left-padded (`ljust`) to the maximum length,
joined and stripped. -/
def merge_strings (weighted : List (String × ℚ)) : String :=
  match weighted with
  | [(s, _)] => s
  | _ =>
      let maxLen := (weighted.map fun p => p.1.length).foldl Nat.max 0
      let expanded := weighted.map fun p =>
        (p.1.data ++ List.replicate (maxLen - p.1.length) ' ', p.2)
      let finalChars := (List.range maxLen).map fun i =>
        best_vote (expanded.foldl (fun acc p => add_vote acc ((p.1.get? i).getD ' ') p.2) [])
      pyStrip ⟨finalChars⟩

/-- All confidences of the accumulated observations, when none is `None`
(otherwise the source raises `TypeError` in the `best_base` loop). -/
def all_confs : List (String × Option ℚ) → Option (List (String × ℚ))
  | [] => some []
  | (s, c) :: rest =>
      match c with
      | some q =>
          match all_confs rest with
          | some g => some ((s, q) :: g)
          | none => none
      | none => none

/-- `max(c for _, c in guesses)` over present confidences. -/
def max_conf : List (String × ℚ) → ℚ
  | [] => 0
  | x :: xs => xs.foldl (fun m p => if m < p.2 then p.2 else m) x.2

/-- The dict returned by `process_plate_smooth`: `conf = none` models the
absent `conf` key of the below-threshold branch. -/
structure SmoothResult where
  final : Option String
  conf : Option ℚ

/-- `text` extraction: prefer the dict payload's `"text"` (missing key and
explicit `None` both collapse to `None`), falling back to `task.meta`. -/
def smooth_text_val (task : Task) : Val :=
  let fromPayload : Val :=
    match task.payload with
    | Payload.pdict m => (m "text").getD Val.vnone
    | _ => Val.vnone
  match fromPayload with
  | Val.vnone => (task.meta "text").getD Val.vnone
  | v => v

/-- `conf` extraction, same precedence as the text. -/
def smooth_conf_val (task : Task) : Val :=
  let fromPayload : Val :=
    match task.payload with
    | Payload.pdict m => (m "conf").getD Val.vnone
    | _ => Val.vnone
  match fromPayload with
  | Val.vnone => (task.meta "conf").getD Val.vnone
  | v => v

/-- A numeric confidence value (`float` or `int` in the source); anything
else is recorded as `none` and will raise once two observations exist. -/
def conf_as_rat : Val → Option ℚ
  | Val.vrat q => some q
  | Val.vint n => some (n : ℚ)
  | _ => none

/-- The recording step of `process_plate_smooth`: `if text:
_global_plate_cache[key].append((text, conf))`.  The pipeline only ever
stores string texts (set by `handle_ocr_result` from a non-empty OCR
string), so the truthiness gate is modelled on string values. -/
def smooth_record (cache : PlateCache) (task : Task) : PlateCache :=
  let key : SmoothKey := (task.video_id, task.track_id)
  match smooth_text_val task with
  | Val.vstr s =>
      if s.isEmpty then cache
      else fun k =>
        if k = key then cache key ++ [(s, conf_as_rat (smooth_conf_val task))]
        else cache k
  | _ => cache

/-- `process_plate_smooth`: record a truthy text under
`(video_id, track_id)`, then emit `{final: None}` below two observations
and the merged consensus with the maximum confidence at two or more.
The result is `none` exactly when the source raises (a `None`/non-numeric
confidence with ≥ 2 observations). -/
def process_plate_smooth (cache : PlateCache) (task : Task) :
    PlateCache × Option SmoothResult :=
  let key : SmoothKey := (task.video_id, task.track_id)
  let cache' := smooth_record cache task
  let guesses := cache' key
  if 2 ≤ guesses.length then
    match all_confs guesses with
    | some g => (cache', some { final := some (merge_strings g), conf := some (max_conf g) })
    | none => (cache', none)
  else
    (cache', some { final := none, conf := none })

/-! ## Concrete instances used by counterexamples and witnesses -/

/-- A minimal task for exercising the queue (its payload and meta are
irrelevant to the queue's bookkeeping). -/
def dummy_task : Task := { category := VEHICLE_DETECT, payload := Payload.nd [] }

/-- A queue configured with soft limit 10 and hard limit 20 for every
category, at the default recovery ratio 0.8 (= 4/5, written as a reduced
fraction so that it evaluates by kernel reduction). -/
def cfg_s10_h20 : QueueConfig :=
  { soft := fun _ => some 10
    hard := fun _ => some 20
    recover_ratio := Rat.mk' 4 5 (by decide) (by decide) }

/-- A queue with hard limit 1 and no soft limit, for exhibiting a refused
push. -/
def cfg_hard1 : QueueConfig :=
  { soft := fun _ => none
    hard := fun _ => some 1
    recover_ratio := Rat.mk' 4 5 (by decide) (by decide) }

/-- A parent `VEHICLE_DETECT` task carrying a payload ref, its dependency
list, and one unrecognized meta key `"custom"`. -/
def parent_task : Task :=
  { category := VEHICLE_DETECT
    payload := Payload.nd [1, 2]
    video_id := some "v"
    frame_idx := some 0
    meta := fun k =>
      if k = "payload_ref" then some (Val.vstr "v:0")
      else if k = "dependencies" then some (Val.vstrs ["v:0"])
      else if k = "custom" then some (Val.vint 7)
      else none }

/-- A GPU-lane backlog with a tie between `VEHICLE_DETECT` and `OCR`. -/
def tie_backlog : TaskCategory → Nat
  | VEHICLE_DETECT => 2
  | OCR => 2
  | _ => 0

/-- A `PLATE_SMOOTH` task carrying one OCR observation
`{text: "XY", conf: 0.7}` in its payload. -/
def smooth_task_XY : Task :=
  { category := PLATE_SMOOTH
    payload := Payload.pdict fun k =>
      if k = "text" then some (Val.vstr "XY")
      else if k = "conf" then some (Val.vrat (Rat.mk' 7 10 (by decide) (by decide)))
      else none
    video_id := some "v"
    track_id := some 1 }

/-! ## Frame-store lemmas and claims C2 / C10 -/

lemma exists_count_iff_getD (o : Option Nat) :
    (∃ c, o = some c ∧ 1 ≤ c) ↔ 1 ≤ o.getD 0 := by
  cases o <;> simp

lemma add_refs_noZero {s : FrameStoreState} (refs : List String)
    (h : NoZeroEntry s) : NoZeroEntry (add_refs s refs) := by
  induction refs generalizing s with
  | nil => exact h
  | cons ref rest ih =>
      rw [add_refs]
      refine ih fun r c hv => ?_
      dsimp only at hv
      by_cases hr : r = ref
      · subst hr
        rw [if_pos rfl] at hv
        have := Option.some.inj hv
        omega
      · rw [if_neg hr] at hv
        exact h r c hv

lemma release_loop_noZero (refs : List String) :
    ∀ (counts : String → Option Nat) (td : List String),
      (∀ r c, counts r = some c → 1 ≤ c) →
      ∀ r c, (release_loop counts refs td).1 r = some c → 1 ≤ c := by
  induction refs with
  | nil => intro counts td h; exact h
  | cons ref rest ih =>
      intro counts td h
      rw [release_loop]
      by_cases hcur : (counts ref).getD 0 ≤ 1
      · rw [if_pos hcur]
        refine ih _ _ fun r' c' hv => ?_
        by_cases hr : r' = ref
        · subst hr; rw [if_pos rfl] at hv; exact absurd hv (by simp)
        · rw [if_neg hr] at hv; exact h r' c' hv
      · rw [if_neg hcur]
        refine ih _ _ fun r' c' hv => ?_
        by_cases hr : r' = ref
        · subst hr
          rw [if_pos rfl] at hv
          have := Option.some.inj hv
          omega
        · rw [if_neg hr] at hv; exact h r' c' hv

lemma release_refs_noZero {s : FrameStoreState} (refs : List String)
    (h : NoZeroEntry s) : NoZeroEntry (release_refs s refs) :=
  release_loop_noZero refs s.counts [] h

lemma save_frame_noZero {s : FrameStoreState} (v : String) (i : Nat)
    (h : NoZeroEntry s) : NoZeroEntry (save_frame s v i).1 := h

lemma runFSOps_noZero (ops : List FSOp) :
    ∀ s : FrameStoreState, NoZeroEntry s → NoZeroEntry (runFSOps s ops) := by
  induction ops with
  | nil => intro s h; exact h
  | cons op rest ih =>
      intro s h
      refine ih _ ?_
      cases op with
      | save v i => exact save_frame_noZero v i h
      | add refs => exact add_refs_noZero refs h
      | release refs => exact release_refs_noZero refs h

lemma foldl_delete_frame (td : List String) :
    ∀ (disk : String → Bool) (r : String),
      td.foldl delete_frame disk r = if r ∈ td then false else disk r := by
  induction td with
  | nil => intro disk r; simp
  | cons a rest ih =>
      intro disk r
      rw [List.foldl_cons, ih]
      by_cases hmem : r ∈ rest
      · simp [hmem]
      · by_cases hra : r = a
        · subst hra; simp [hmem, delete_frame]
        · simp [hmem, hra, delete_frame]

lemma release_loop_invAux (disk : String → Bool) (refs : List String) :
    ∀ (counts : String → Option Nat) (td : List String),
      InvAux counts disk td →
      InvAux (release_loop counts refs td).1 disk (release_loop counts refs td).2 := by
  induction refs with
  | nil => intro counts td h; exact h
  | cons ref rest ih =>
      intro counts td h
      obtain ⟨h1, h2, h3⟩ := h
      rw [release_loop]
      by_cases hcur : (counts ref).getD 0 ≤ 1
      · rw [if_pos hcur]
        refine ih _ _ ⟨fun r hd => ?_, fun r hc => ?_, fun r hm => ?_⟩
        · dsimp only
          rcases h1 r hd with hc | hm
          · by_cases hr : r = ref
            · subst hr; right; simp
            · left; rw [if_neg hr]; exact hc
          · right; simp [hm]
        · dsimp only at hc
          by_cases hr : r = ref
          · subst hr; rw [if_pos rfl] at hc; simp at hc
          · rw [if_neg hr] at hc; exact h2 r hc
        · dsimp only
          rcases List.mem_append.mp hm with hm2 | hm2
          · by_cases hr : r = ref
            · subst hr; rw [if_pos rfl]
            · rw [if_neg hr]; exact h3 r hm2
          · rw [List.mem_singleton.mp hm2, if_pos rfl]
      · rw [if_neg hcur]
        refine ih _ _ ⟨fun r hd => ?_, fun r hc => ?_, fun r hm => ?_⟩
        · dsimp only
          by_cases hr : r = ref
          · subst hr; left; rw [if_pos rfl]; simp only [Option.getD_some]; omega
          · rw [if_neg hr]; exact h1 r hd
        · dsimp only at hc
          by_cases hr : r = ref
          · refine h2 r ?_
            rw [hr]
            omega
          · rw [if_neg hr] at hc; exact h2 r hc
        · dsimp only
          by_cases hr : r = ref
          · exfalso
            have hnone := h3 r hm
            rw [← hr] at hcur
            rw [hnone] at hcur
            simp at hcur
          · rw [if_neg hr]; exact h3 r hm

lemma release_refs_inv {s : FrameStoreState} (refs : List String)
    (h : FrameStoreInv s) : FrameStoreInv (release_refs s refs) := by
  have hstart : InvAux s.counts s.disk [] := by
    refine ⟨fun r hd => Or.inl ?_, fun r hc => ?_, fun r hm => absurd hm (by simp)⟩
    · exact (exists_count_iff_getD _).mp ((h r).mp hd)
    · exact (h r).mpr ((exists_count_iff_getD _).mpr hc)
  obtain ⟨h1, h2, h3⟩ := release_loop_invAux s.disk refs s.counts [] hstart
  intro r
  rw [release_refs]
  dsimp only
  rw [foldl_delete_frame, exists_count_iff_getD]
  by_cases hmem : r ∈ (release_loop s.counts refs []).2
  · rw [if_pos hmem]
    have := h3 r hmem
    simp [this]
  · rw [if_neg hmem]
    constructor
    · intro hd
      rcases h1 r hd with hc | hm
      · exact hc
      · exact absurd hm hmem
    · exact h2 r

lemma save_then_add_inv {s : FrameStoreState} (v : String) (i : Nat)
    (h : FrameStoreInv s) : FrameStoreInv (save_then_add s v i) := by
  intro r
  rw [save_then_add]
  dsimp only
  rw [save_frame]
  dsimp only
  rw [add_refs, add_refs]
  dsimp only
  rw [exists_count_iff_getD]
  by_cases hr : r = v ++ ":" ++ toString i
  · rw [if_pos hr, if_pos hr]
    simp
  · rw [if_neg hr, if_neg hr]
    rw [← exists_count_iff_getD]
    exact h r

lemma add_refs_inv {s : FrameStoreState} (refs : List String)
    (h : FrameStoreInv s) (hd : ∀ r ∈ refs, s.disk r = true) :
    FrameStoreInv (add_refs s refs) := by
  induction refs generalizing s with
  | nil => exact h
  | cons ref rest ih =>
      rw [add_refs]
      refine ih ?_ fun r hr => hd r (List.mem_cons_of_mem _ hr)
      intro r
      dsimp only
      rw [exists_count_iff_getD]
      by_cases hr : r = ref
      · subst hr
        rw [if_pos rfl]
        simp [hd r (List.mem_cons_self _ _)]
      · rw [if_neg hr, ← exists_count_iff_getD]
        exact h r

/-- C2, counterexample: the claim says `save_frame` preserves invariant (c)
("bytes exist iff the ref is tabled with count ≥ 1"), but saving a frame
into the empty store writes its bytes without creating any refcount entry,
so the state right after `save_frame` violates the invariant. -/
theorem C2_counterexample :
    ¬ FrameStoreInv (save_frame FrameStoreState.empty "v" 0).1 := by
  intro h
  obtain ⟨c, hc, -⟩ := (h "v:0").mp (by decide)
  simp [save_frame, FrameStoreState.empty] at hc

/-- C2 (amended): invariant (c) — a frame's bytes exist iff its payload_ref
is in the refcount table with count ≥ 1 — is preserved by `release_refs`,
by the paired sequence `save_frame` + `add_refs([ref])`, and by `add_refs`
on refs whose bytes exist; `save_frame` alone does not preserve it (it
writes bytes without touching the table — see `C2_counterexample`), and
`add_refs` alone preserves it only for already-saved refs. -/
theorem C2_amended_invariant_preservation :
    (∀ (s : FrameStoreState) (refs : List String),
        FrameStoreInv s → FrameStoreInv (release_refs s refs))
    ∧ (∀ (s : FrameStoreState) (v : String) (i : Nat),
        FrameStoreInv s → FrameStoreInv (save_then_add s v i))
    ∧ (∀ (s : FrameStoreState) (refs : List String),
        FrameStoreInv s → (∀ r ∈ refs, s.disk r = true) →
        FrameStoreInv (add_refs s refs)) :=
  ⟨fun _ refs h => release_refs_inv refs h,
   fun _ v i h => save_then_add_inv v i h,
   fun _ refs h hd => add_refs_inv refs h hd⟩

/-- Witness for C2 at a concrete input: starting from the empty store
(which satisfies the invariant), a save+add_refs pair followed by a
release leaves the invariant intact. -/
theorem C2_amended_witness :
    FrameStoreInv (release_refs (save_then_add FrameStoreState.empty "v" 0) ["v:0"]) :=
  C2_amended_invariant_preservation.1 _ _
    (C2_amended_invariant_preservation.2.1 _ "v" 0
      (fun r => by simp [FrameStoreState.empty]))

/-- C10: `release_refs` on a ref whose current count is at most 1 —
including a ref with no table entry at all — removes the entry and deletes
the frame bytes from disk; and the refcount table of any state reachable
from the empty store never holds an entry with count 0. -/
theorem C10_release_untracked_evicts :
    (∀ (s : FrameStoreState) (r : String),
        (s.counts r).getD 0 ≤ 1 →
        (release_refs s [r]).counts r = none ∧ (release_refs s [r]).disk r = false)
    ∧ (∀ ops : List FSOp, NoZeroEntry (runFSOps FrameStoreState.empty ops)) := by
  constructor
  · intro s r h
    rw [release_refs, release_loop, if_pos h, release_loop]
    dsimp only
    constructor
    · rw [if_pos rfl]
    · rw [foldl_delete_frame]
      simp
  · intro ops
    exact runFSOps_noZero ops _ fun r c hc => by
      simp [FrameStoreState.empty] at hc

/-- Witness for C10 at a concrete input: a frame saved but never
`add_refs`'d (count 0) is evicted by `release_refs`, and a concrete
save/add/release run never tables a zero count. -/
theorem C10_witness :
    ((save_frame FrameStoreState.empty "a" 0).1.counts "a:0").getD 0 ≤ 1
    ∧ (release_refs (save_frame FrameStoreState.empty "a" 0).1 ["a:0"]).counts "a:0" = none
    ∧ (release_refs (save_frame FrameStoreState.empty "a" 0).1 ["a:0"]).disk "a:0" = false
    ∧ NoZeroEntry (runFSOps FrameStoreState.empty
        [FSOp.save "a" 0, FSOp.add ["a:0"], FSOp.release ["a:0"]]) :=
  ⟨by decide,
   (C10_release_untracked_evicts.1 _ "a:0" (by decide)).1,
   (C10_release_untracked_evicts.1 _ "a:0" (by decide)).2,
   C10_release_untracked_evicts.2 _⟩

/-! ## Queue lemmas and claims C4 / C8 -/

lemma update_flags_fields (cfg : QueueConfig) (cat : TaskCategory)
    (q : CatQueueState) :
    (update_flags cfg cat q).items = q.items ∧
    (update_flags cfg cat q).count = q.count := by
  unfold update_flags
  split
  · exact ⟨rfl, rfl⟩
  · split
    · exact ⟨rfl, rfl⟩
    · split
      · exact ⟨rfl, rfl⟩
      · exact ⟨rfl, rfl⟩

lemma queueInv_init (cfg : QueueConfig) : QueueInv cfg QueueState.init := by
  intro cat
  exact ⟨rfl, fun h _ => Nat.zero_le h⟩

lemma push_queueInv {cfg : QueueConfig} {st : QueueState} (id : Int) (t : Task)
    (h : QueueInv cfg st) : QueueInv cfg (push cfg st id t).2 := by
  intro cat
  unfold push
  dsimp only
  split
  · dsimp only
    by_cases hc : cat = t.category
    · subst hc
      rw [if_pos rfl]
      exact ⟨(h t.category).1, (h t.category).2⟩
    · rw [if_neg hc]; exact h cat
  · rename_i href
    dsimp only
    by_cases hc : cat = t.category
    · subst hc
      rw [if_pos rfl]
      constructor
      · dsimp only
        simp [(h t.category).1]
      · intro H hH
        rw [hH] at href
        simp only [decide_eq_true_eq] at href
        dsimp only
        omega
    · rw [if_neg hc]; exact h cat

lemma pop_queueInv {cfg : QueueConfig} {st : QueueState} (cat : TaskCategory)
    (h : QueueInv cfg st) : QueueInv cfg (pop cfg st cat).2 := by
  intro c
  unfold pop
  split
  · exact h c
  · rename_i tid t rest heq
    dsimp only
    by_cases hc : c = cat
    · subst hc
      rw [if_pos rfl]
      constructor
      · rw [(update_flags_fields _ _ _).1, (update_flags_fields _ _ _).2]
        have h1 := (h c).1
        rw [heq] at h1
        simp only [List.length_cons] at h1
        dsimp only
        omega
      · intro H hH
        rw [(update_flags_fields _ _ _).2]
        have := (h c).2 H hH
        dsimp only
        omega
    · rw [if_neg hc]; exact h c

lemma runQOps_queueInv (cfg : QueueConfig) (ops : List QOp) :
    QueueInv cfg (runQOps cfg ops) := by
  rw [runQOps]
  have main : ∀ (l : List QOp) (st : QueueState), QueueInv cfg st →
      QueueInv cfg (l.foldl (QOp.apply cfg) st) := by
    intro l
    induction l with
    | nil => intro st h; exact h
    | cons op rest ih =>
        intro st h
        rw [List.foldl_cons]
        refine ih _ ?_
        cases op with
        | push id t => exact push_queueInv id t h
        | pop cat => exact pop_queueInv cat h
  exact main ops _ (queueInv_init cfg)

lemma push_fst_false_iff (cfg : QueueConfig) (st : QueueState) (id : Int)
    (t : Task) :
    (push cfg st id t).1 = false ↔
      ∃ H, cfg.hard t.category = some H ∧ H ≤ (st t.category).count := by
  unfold push
  dsimp only
  split
  · rename_i href
    refine iff_of_true rfl ?_
    cases hh : cfg.hard t.category with
    | none => rw [hh] at href; simp at href
    | some H =>
        rw [hh] at href
        simp only [decide_eq_true_eq] at href
        exact ⟨H, rfl, href⟩
  · rename_i href
    refine iff_of_false (by simp) ?_
    rintro ⟨H, hH, hle⟩
    rw [hH] at href
    simp only [decide_eq_true_eq] at href
    exact href hle

/-- C4: `push` returns false iff the task's category queue sits exactly at
its hard limit (for any state reachable by pushes and pops from the
initial queue); below the hard limit the push succeeds and appends the
task at the tail; and the soft limits play no part in acceptance — two
configurations sharing hard limits accept and refuse identically. -/
theorem C4_push_hard_limit :
    (∀ (cfg : QueueConfig) (ops : List QOp) (id : Int) (task : Task) (H : Nat),
        cfg.hard task.category = some H →
        (((push cfg (runQOps cfg ops) id task).1 = false ↔
            ((runQOps cfg ops) task.category).count = H)
          ∧ (((runQOps cfg ops) task.category).count < H →
              (push cfg (runQOps cfg ops) id task).1 = true ∧
              ((push cfg (runQOps cfg ops) id task).2 task.category).items =
                ((runQOps cfg ops) task.category).items ++ [(id, task)])))
    ∧ (∀ (cfg cfg' : QueueConfig) (st : QueueState) (id : Int) (task : Task),
        cfg'.hard = cfg.hard →
        (push cfg' st id task).1 = (push cfg st id task).1) := by
  constructor
  · intro cfg ops id task H hH
    have hinv := runQOps_queueInv cfg ops task.category
    constructor
    · rw [push_fst_false_iff]
      constructor
      · rintro ⟨H', hH', hle⟩
        rw [hH] at hH'
        cases hH'
        exact Nat.le_antisymm (hinv.2 H hH) hle
      · intro hcount
        exact ⟨H, hH, le_of_eq hcount.symm⟩
    · intro hlt
      unfold push
      dsimp only
      have hcond : (match cfg.hard task.category with
          | some hard => decide (hard ≤ ((runQOps cfg ops) task.category).count)
          | none => false) = false := by
        rw [hH]
        simp only [decide_eq_false_iff_not]
        omega
      rw [if_neg (by rw [hcond]; simp)]
      exact ⟨rfl, by simp⟩
  · intro cfg cfg' st id task hhard
    unfold push
    dsimp only
    rw [hhard]
    split
    · rfl
    · rfl

/-- Witness for C4 at a concrete input: after two pushes into a hard-limit-20
queue the depth is 2 < 20, so a further push is accepted and lands at the
tail; and the refusal test agrees between configurations with equal hard
limits. -/
theorem C4_witness :
    ((push cfg_s10_h20
        (runQOps cfg_s10_h20 [QOp.push 1 dummy_task, QOp.push 2 dummy_task])
        3 dummy_task).1 = true
      ∧ ((push cfg_s10_h20
            (runQOps cfg_s10_h20 [QOp.push 1 dummy_task, QOp.push 2 dummy_task])
            3 dummy_task).2 dummy_task.category).items =
          ((runQOps cfg_s10_h20 [QOp.push 1 dummy_task, QOp.push 2 dummy_task])
              dummy_task.category).items ++ [(3, dummy_task)])
    ∧ (push cfg_hard1 QueueState.init 0 dummy_task).1 =
        (push { cfg_hard1 with soft := fun _ => some 99 }
          QueueState.init 0 dummy_task).1 :=
  ⟨((C4_push_hard_limit.1 cfg_s10_h20 [QOp.push 1 dummy_task, QOp.push 2 dummy_task]
      3 dummy_task 20 rfl).2 (by decide)),
   (C4_push_hard_limit.2 { cfg_hard1 with soft := fun _ => some 99 } cfg_hard1
      QueueState.init 0 dummy_task rfl).symm⟩

lemma recoverPoint_eq_floor (cfg : QueueConfig) (soft : Nat)
    (h : 0 ≤ cfg.recover_ratio) :
    (recoverPoint cfg soft : ℤ) = ⌊(soft : ℚ) * cfg.recover_ratio⌋ := by
  have hnum : 0 ≤ cfg.recover_ratio.num := Rat.num_nonneg.mpr h
  have ha0 : 0 ≤ (soft : ℤ) * cfg.recover_ratio.num :=
    mul_nonneg (Int.natCast_nonneg _) hnum
  have hq : (soft : ℚ) * cfg.recover_ratio =
      (((soft : ℤ) * cfg.recover_ratio.num : ℤ) : ℚ) / (cfg.recover_ratio.den : ℚ) := by
    conv_lhs => rw [← Rat.num_div_den cfg.recover_ratio]
    push_cast
    ring
  rw [hq, Rat.floor_intCast_div_natCast, recoverPoint]
  rw [Int.ofNat_tdiv]
  rw [Int.toNat_of_nonneg ha0]
  exact Int.tdiv_eq_ediv ha0 (Int.natCast_nonneg _)

/-- C8 (amended): with soft limit `s` and recovery point
`R = int(s * recover_ratio)` (equal to `⌊s·r⌋` for a non-negative ratio,
by `recoverPoint_eq_floor` — not `⌊s·r⌋ − 1` as the claim stated), the
backed-up flag becomes true at depth ≥ `s`; after a pop it becomes false
at depth ≤ `R`; strictly between `R` and `s` a pop leaves it unchanged; a
pop hands the category state to `_update_flags` on the decremented state;
and a successful push sets the flag at depth ≥ `s` and otherwise keeps it
(a push never clears the flag). -/
theorem C8_amended_backed_up_thresholds :
    ∀ (cfg : QueueConfig) (cat : TaskCategory) (s : Nat),
      cfg.soft cat = some s →
      (∀ q : CatQueueState, s ≤ q.count →
          (update_flags cfg cat q).backedUp = true)
      ∧ (∀ q : CatQueueState, ¬ s ≤ q.count → q.count ≤ recoverPoint cfg s →
          (update_flags cfg cat q).backedUp = false)
      ∧ (∀ q : CatQueueState, recoverPoint cfg s < q.count → q.count < s →
          update_flags cfg cat q = q)
      ∧ (∀ (st : QueueState) (tid : Int) (t : Task) (rest : List (Int × Task)),
          (st cat).items = (tid, t) :: rest →
          (pop cfg st cat).2 cat =
            update_flags cfg cat
              { items := rest, count := (st cat).count - 1,
                backedUp := (st cat).backedUp })
      ∧ (∀ (st : QueueState) (id : Int) (task : Task),
          task.category = cat → (push cfg st id task).1 = true →
          ((push cfg st id task).2 cat).backedUp =
            (if s ≤ (st cat).count + 1 then true else (st cat).backedUp)) := by
  intro cfg cat s hs
  refine ⟨?_, ?_, ?_, ?_, ?_⟩
  · intro q hq
    unfold update_flags
    rw [hs]
    dsimp only
    rw [if_pos hq]
  · intro q hq1 hq2
    unfold update_flags
    rw [hs]
    dsimp only
    rw [if_neg hq1, if_pos hq2]
  · intro q hq1 hq2
    unfold update_flags
    rw [hs]
    dsimp only
    rw [if_neg (by omega), if_neg (by omega)]
  · intro st tid t rest heq
    unfold pop
    split
    · rename_i hnil
      rw [heq] at hnil
      exact absurd hnil (by simp)
    · rename_i tid' t' rest' heq'
      rw [heq] at heq'
      cases heq'
      dsimp only
      rw [if_pos rfl]
  · intro st id task htc hpush
    unfold push at hpush ⊢
    dsimp only at hpush ⊢
    split at hpush
    · exact absurd hpush (by simp)
    · rename_i hcond
      rw [if_neg hcond]
      dsimp only
      subst htc
      rw [if_pos rfl, hs]

/-- Witness for C8 at concrete inputs: with soft limit 10 and ratio 4/5
(recovery point 8), a pop landing at depth 8 clears the flag, a pop landing
at depth 9 leaves it, and a successful push reaching depth 10 sets it. -/
theorem C8_amended_witness :
    (update_flags cfg_s10_h20 VEHICLE_DETECT
        { items := [], count := 8, backedUp := true }).backedUp = false
    ∧ (update_flags cfg_s10_h20 VEHICLE_DETECT
        { items := [], count := 9, backedUp := true }) =
        { items := [], count := 9, backedUp := true }
    ∧ (update_flags cfg_s10_h20 VEHICLE_DETECT
        { items := [], count := 10, backedUp := false }).backedUp = true :=
  ⟨(C8_amended_backed_up_thresholds cfg_s10_h20 VEHICLE_DETECT 10 rfl).2.1
      _ (by decide) (by decide),
   (C8_amended_backed_up_thresholds cfg_s10_h20 VEHICLE_DETECT 10 rfl).2.2.1
      _ (by decide) (by decide),
   (C8_amended_backed_up_thresholds cfg_s10_h20 VEHICLE_DETECT 10 rfl).1
      _ (by decide)⟩

/-- C8, counterexample: the claim says the flag clears only at depth
`⌊r·s⌋ − 1 = 7` (for `s = 10`, `r = 0.8`) and keeps its previous value
strictly between that point and `s`; but after ten pushes (flag true) and
two pops the depth is 8 — strictly between 7 and 10 — and the code has
already cleared the flag. -/
theorem C8_counterexample :
    ((runQOps cfg_s10_h20 (List.replicate 10 (QOp.push 1 dummy_task)))
        VEHICLE_DETECT).backedUp = true
    ∧ ((runQOps cfg_s10_h20 (List.replicate 10 (QOp.push 1 dummy_task) ++
          [QOp.pop VEHICLE_DETECT, QOp.pop VEHICLE_DETECT]))
        VEHICLE_DETECT).count = 8
    ∧ recoverPoint cfg_s10_h20 10 - 1 = 7
    ∧ ((runQOps cfg_s10_h20 (List.replicate 10 (QOp.push 1 dummy_task) ++
          [QOp.pop VEHICLE_DETECT, QOp.pop VEHICLE_DETECT]))
        VEHICLE_DETECT).backedUp = false := by
  refine ⟨by decide, by decide, by decide, by decide⟩

/-! ## Busiest-first lemmas and claim C7 -/

lemma maxB_nil (backlog : TaskCategory → Nat) : maxB [] backlog = 0 := rfl

lemma maxB_cons (a : TaskCategory) (l : List TaskCategory)
    (backlog : TaskCategory → Nat) :
    maxB (a :: l) backlog = Nat.max (backlog a) (maxB l backlog) := rfl

lemma maxB_eq_zero_iff (cats : List TaskCategory) (backlog : TaskCategory → Nat) :
    maxB cats backlog = 0 ↔ ∀ c ∈ cats, backlog c = 0 := by
  induction cats with
  | nil => simp [maxB_nil]
  | cons a l ih =>
      rw [maxB_cons, Nat.max_eq_zero_iff]
      constructor
      · rintro ⟨h1, h2⟩ c hc
        rcases List.mem_cons.mp hc with rfl | hc
        · exact h1
        · exact ih.mp h2 c hc
      · intro h
        exact ⟨h a (List.mem_cons_self _ _),
          ih.mpr fun c hc => h c (List.mem_cons_of_mem _ hc)⟩

lemma le_maxB (cats : List TaskCategory) (backlog : TaskCategory → Nat) :
    ∀ d ∈ cats, backlog d ≤ maxB cats backlog := by
  induction cats with
  | nil => simp
  | cons a l ih =>
      intro d hd
      rw [maxB_cons]
      rcases List.mem_cons.mp hd with rfl | hd
      · exact Nat.le_max_left _ _
      · exact le_trans (ih d hd) (Nat.le_max_right _ _)

lemma choose_busiest_loop_spec (backlog : TaskCategory → Nat)
    (cats : List TaskCategory) :
    ∀ (b : Option TaskCategory) (n : Nat),
      ((choose_busiest_loop backlog cats (b, n)).2 = Nat.max n (maxB cats backlog))
      ∧ (maxB cats backlog ≤ n → choose_busiest_loop backlog cats (b, n) = (b, n))
      ∧ (n < maxB cats backlog →
          (choose_busiest_loop backlog cats (b, n)).1 =
            cats.find? fun d => decide (maxB cats backlog ≤ backlog d)) := by
  induction cats with
  | nil =>
      intro b n
      refine ⟨by simp [choose_busiest_loop, maxB_nil], fun _ => rfl,
        fun hlt => absurd hlt (by simp [maxB_nil])⟩
  | cons a rest ih =>
      intro b n
      rw [choose_busiest_loop]
      dsimp only
      rw [maxB_cons]
      by_cases hA : n < backlog a
      · rw [if_pos hA]
        refine ⟨?_, ?_, ?_⟩
        · rw [(ih (some a) (backlog a)).1]
          exact (Nat.max_eq_right
            (le_trans (Nat.le_of_lt hA) (Nat.le_max_left _ _))).symm
        · intro hle
          exfalso
          have := le_trans (Nat.le_max_left (backlog a) (maxB rest backlog)) hle
          omega
        · intro _
          by_cases hMA : maxB rest backlog ≤ backlog a
          · have hmax : (backlog a).max (maxB rest backlog) = backlog a :=
              Nat.max_eq_left hMA
            rw [hmax]
            rw [((ih (some a) (backlog a)).2.1 hMA)]
            rw [List.find?_cons_of_pos _ (by simp)]
          · have hmax : (backlog a).max (maxB rest backlog) = maxB rest backlog :=
              Nat.max_eq_right (Nat.le_of_not_le hMA)
            rw [hmax]
            rw [List.find?_cons_of_neg _ (by simp; omega)]
            exact (ih (some a) (backlog a)).2.2 (by omega)
      · rw [if_neg hA]
        refine ⟨?_, ?_, ?_⟩
        · rw [(ih b n).1]
          simp only [Nat.max_def]
          split_ifs <;> omega
        · intro hle
          exact (ih b n).2.1
            (le_trans (Nat.le_max_right (backlog a) (maxB rest backlog)) hle)
        · intro hlt
          have hM : n < maxB rest backlog := by
            simp only [Nat.max_def] at hlt
            split_ifs at hlt <;> omega
          have hmax : (backlog a).max (maxB rest backlog) = maxB rest backlog :=
            Nat.max_eq_right (by omega)
          rw [hmax]
          rw [List.find?_cons_of_neg _ (by simp; omega)]
          exact (ih b n).2.2 hM

lemma maxB_attained (cats : List TaskCategory) (backlog : TaskCategory → Nat)
    (h : 0 < maxB cats backlog) :
    ∃ d ∈ cats, backlog d = maxB cats backlog := by
  induction cats with
  | nil => simp [maxB_nil] at h
  | cons x xs ihx =>
      rw [maxB_cons] at h ⊢
      by_cases hx : maxB xs backlog ≤ backlog x
      · refine ⟨x, by simp, ?_⟩
        have hmax : (backlog x).max (maxB xs backlog) = backlog x :=
          Nat.max_eq_left hx
        rw [hmax]
      · have hx' : backlog x ≤ maxB xs backlog := Nat.le_of_not_le hx
        have hmax2 : (backlog x).max (maxB xs backlog) = maxB xs backlog :=
          Nat.max_eq_right hx'
        rw [hmax2] at h ⊢
        obtain ⟨d, hd, hdm⟩ := ihx h
        exact ⟨d, List.mem_cons_of_mem _ hd, hdm⟩

lemma find?_ge_ne_none (l : List TaskCategory) (backlog : TaskCategory → Nat)
    (M : Nat) (h : ∃ d ∈ l, M ≤ backlog d) :
    l.find? (fun d => decide (M ≤ backlog d)) ≠ none := by
  induction l with
  | nil => obtain ⟨d, hd, -⟩ := h; exact absurd hd (by simp)
  | cons x xs ih =>
      by_cases px : M ≤ backlog x
      · rw [List.find?_cons_of_pos _ (by simpa)]
        simp
      · rw [List.find?_cons_of_neg _ (by simpa using px)]
        obtain ⟨d, hd, hdm⟩ := h
        rcases List.mem_cons.mp hd with rfl | hd'
        · exact absurd hdm px
        · exact ih ⟨d, hd', hdm⟩

lemma choose_busiest_spec (cats : List TaskCategory) (backlog : TaskCategory → Nat) :
    (choose_busiest cats backlog = none ↔ ∀ c ∈ cats, backlog c = 0)
    ∧ (∀ c, choose_busiest cats backlog = some c →
        c ∈ cats ∧ 0 < backlog c ∧ (∀ d ∈ cats, backlog d ≤ backlog c)
        ∧ cats.find? (fun d => decide (backlog c ≤ backlog d)) = some c) := by
  have hspec := choose_busiest_loop_spec backlog cats none 0
  have hz : Nat.max 0 (maxB cats backlog) = maxB cats backlog :=
    Nat.max_eq_right (Nat.zero_le _)
  rw [choose_busiest]
  by_cases hM : 0 < maxB cats backlog
  · have h2 : (choose_busiest_loop backlog cats (none, 0)).2 = maxB cats backlog := by
      rw [hspec.1, hz]
    have h1 := hspec.2.2 (by omega)
    rw [h2, if_pos hM, h1]
    constructor
    · constructor
      · intro hfind
        obtain ⟨d, hd, hdm⟩ := maxB_attained cats backlog hM
        exact absurd hfind
          (find?_ge_ne_none cats backlog _ ⟨d, hd, le_of_eq hdm.symm⟩)
      · intro hall
        exfalso
        rw [(maxB_eq_zero_iff cats backlog).mpr hall] at hM
        omega
    · intro c hc
      have hmem := List.mem_of_find?_eq_some hc
      have hp := List.find?_some hc
      simp only [decide_eq_true_eq] at hp
      have hcmax : backlog c = maxB cats backlog :=
        Nat.le_antisymm (le_maxB cats backlog c hmem) hp
      rw [← hcmax] at hc
      exact ⟨hmem, by omega, fun d hd => by
        have := le_maxB cats backlog d hd; omega, hc⟩
  · rw [hspec.1, hz, if_neg (by omega)]
    constructor
    · simp only [true_iff]
      intro c hc
      have := le_maxB cats backlog c hc
      omega
    · intro c hc
      exact absurd hc (by simp)

/-- C7, counterexample: with backlogs `VEHICLE_DETECT = OCR = 2` (a tie)
the worker's selection returns `VEHICLE_DETECT` regardless of which
category is currently loaded — the selection functions read only the lane
list and the backlogs, so a worker whose loaded category is `OCR` does not
keep it as the claim requires. -/
theorem C7_counterexample :
    choose_busiest_gpu_category tie_backlog = some VEHICLE_DETECT
    ∧ tie_backlog VEHICLE_DETECT = tie_backlog OCR
    ∧ VEHICLE_DETECT ≠ OCR := by
  refine ⟨by decide, by decide, by decide⟩

/-- C7 (amended): the GPU and CPU selection functions return `none` exactly
when every lane category has zero backlog, and otherwise return the first
category in lane declaration order whose backlog is maximal (so ties break
by declaration order alone; the currently loaded category is not
consulted — it is not even an input of the selection). -/
theorem C7_amended_busiest_first :
    (∀ backlog : TaskCategory → Nat,
      (choose_busiest_gpu_category backlog = none ↔
        ∀ c ∈ gpu_categories, backlog c = 0)
      ∧ (∀ c, choose_busiest_gpu_category backlog = some c →
          c ∈ gpu_categories ∧ 0 < backlog c
          ∧ (∀ d ∈ gpu_categories, backlog d ≤ backlog c)
          ∧ gpu_categories.find? (fun d => decide (backlog c ≤ backlog d)) = some c))
    ∧ (∀ backlog : TaskCategory → Nat,
      (choose_busiest_cpu_category backlog = none ↔
        ∀ c ∈ cpu_categories, backlog c = 0)
      ∧ (∀ c, choose_busiest_cpu_category backlog = some c →
          c ∈ cpu_categories ∧ 0 < backlog c
          ∧ (∀ d ∈ cpu_categories, backlog d ≤ backlog c)
          ∧ cpu_categories.find? (fun d => decide (backlog c ≤ backlog d)) = some c)) :=
  ⟨fun backlog => choose_busiest_spec gpu_categories backlog,
   fun backlog => choose_busiest_spec cpu_categories backlog⟩

/-- Witness for C7 at a concrete input: on the tied backlog the selection
returns a category that is maximal and first-in-order among the maxima. -/
theorem C7_amended_witness :
    VEHICLE_DETECT ∈ gpu_categories
    ∧ 0 < tie_backlog VEHICLE_DETECT
    ∧ (∀ d ∈ gpu_categories, tie_backlog d ≤ tie_backlog VEHICLE_DETECT)
    ∧ gpu_categories.find?
        (fun d => decide (tie_backlog VEHICLE_DETECT ≤ tie_backlog d)) =
        some VEHICLE_DETECT :=
  (C7_amended_busiest_first.1 tie_backlog).2 VEHICLE_DETECT (by decide)

/-! ## Metadata passthrough: claim C6 -/

/-- C6, counterexample: the parent's unrecognized meta key `"custom"`
(value 7) is absent from the meta of the `VEHICLE_TRACK` task that
`handle_vehicle_detect_result` spawns — `_merge_meta` copies only the four
pass-through keys, dropping everything else the handler does not set. -/
theorem C6_counterexample :
    parent_task.meta "custom" = some (Val.vint 7)
    ∧ ((pushedTasks (handle_vehicle_detect_result parent_task [])).head?.map
        fun t => t.meta "custom") = some none := by
  refine ⟨by decide, by decide⟩

/-- C6 (amended): `_merge_meta` carries forward exactly the four keys
`video_path`, `video_filename`, `video_ts_frame`, `global_id` (when the
handler's updates do not set them); every other parent key not set by the
handler — including all unrecognized keys — is dropped from the child's
meta. -/
theorem C6_amended_passthrough :
    (∀ (meta updates : Meta) (k : String),
        updates k = none → PASS_THROUGH_META_KEYS.contains k = false →
        merge_meta meta updates k = none)
    ∧ (∀ (meta updates : Meta) (k : String),
        updates k = none → PASS_THROUGH_META_KEYS.contains k = true →
        merge_meta meta updates k = meta k) := by
  constructor
  · intro meta updates k h1 h2
    unfold merge_meta
    rw [h1, if_neg (by simpa using h2)]
  · intro meta updates k h1 h2
    unfold merge_meta
    rw [h1, if_pos h2]

/-- Witness for C6 at concrete inputs: with empty updates, the parent's
`"custom"` key is dropped while `"video_path"` would be carried. -/
theorem C6_amended_witness :
    merge_meta parent_task.meta Meta.empty "custom" = none
    ∧ merge_meta parent_task.meta Meta.empty "video_path" =
        parent_task.meta "video_path" :=
  ⟨C6_amended_passthrough.1 parent_task.meta Meta.empty "custom" rfl (by decide),
   C6_amended_passthrough.2 parent_task.meta Meta.empty "video_path" rfl (by decide)⟩

/-! ## Dispatch fan-out: claim C5 -/

lemma plate_detect_child_fields (task : Task) (det : Detection)
    (pr : Option Val) (deps : List String) :
    (plate_detect_child task det pr deps).category = PLATE_DETECT
    ∧ (plate_detect_child task det pr deps).meta "car_bbox" =
        some (Val.vrats det.bbox)
    ∧ (plate_detect_child task det pr deps).meta "payload_ref" =
        some (pr.getD Val.vnone)
    ∧ (plate_detect_child task det pr deps).meta "dependencies" =
        some (Val.vstrs deps) := by
  refine ⟨rfl, ?_, ?_, ?_⟩ <;> simp [plate_detect_child, merge_meta]

lemma vehicle_track_child_fields (task : Task) (result : List Detection)
    (pr : Option Val) (deps : List String) :
    (vehicle_track_child task result pr deps).category = VEHICLE_TRACK
    ∧ (vehicle_track_child task result pr deps).payload = Payload.plist result
    ∧ (vehicle_track_child task result pr deps).meta "payload_ref" =
        some (pr.getD Val.vnone)
    ∧ (vehicle_track_child task result pr deps).meta "dependencies" =
        some (Val.vstrs deps) := by
  refine ⟨rfl, rfl, ?_, ?_⟩ <;> simp [vehicle_track_child, merge_meta]

lemma pushedTasks_append (l1 l2 : List Effect) :
    pushedTasks (l1 ++ l2) = pushedTasks l1 ++ pushedTasks l2 :=
  List.filterMap_append l1 l2 _

lemma pushedTasks_pairs (deps : List String) (f : Detection → Task)
    (result : List Detection) :
    pushedTasks ((result.map fun det =>
        [Effect.addRefsE deps, Effect.pushTaskE (f det)]).flatten) =
      result.map f := by
  induction result with
  | nil => rfl
  | cons det rest ih =>
      simp only [List.map_cons, List.flatten_cons]
      rw [pushedTasks_append, ih]
      rfl

lemma handle_vehicle_detect_pushed (task : Task) (result : List Detection) :
    pushedTasks (handle_vehicle_detect_result task result) =
      result.map (fun det => plate_detect_child task det
          (task.meta "payload_ref") (meta_dependencies task.meta))
        ++ [vehicle_track_child task result
            (task.meta "payload_ref") (meta_dependencies task.meta)] := by
  unfold handle_vehicle_detect_result
  rw [pushedTasks_append, pushedTasks_pairs]
  rfl

/-- C5: `handle_vehicle_detect_result` on a detection list of length n
pushes exactly n `PLATE_DETECT` tasks — one per detection, in order, each
with `meta.car_bbox` equal to that detection's bbox and the parent's
`payload_ref` and `dependencies` carried forward — plus exactly one
`VEHICLE_TRACK` task carrying the full detection list (so an empty list
yields zero `PLATE_DETECT` pushes and still exactly one `VEHICLE_TRACK`
push). -/
theorem C5_vehicle_detect_fanout (task : Task) (result : List Detection) :
    (((pushedTasks (handle_vehicle_detect_result task result)).filter
        fun t => t.category = PLATE_DETECT).length = result.length)
    ∧ (((pushedTasks (handle_vehicle_detect_result task result)).filter
        fun t => t.category = VEHICLE_TRACK).length = 1)
    ∧ List.Forall₂ (fun (det : Detection) (c : Task) =>
          c.meta "car_bbox" = some (Val.vrats det.bbox)
          ∧ c.meta "payload_ref" =
              some ((task.meta "payload_ref").getD Val.vnone)
          ∧ c.meta "dependencies" =
              some (Val.vstrs (meta_dependencies task.meta)))
        result
        ((pushedTasks (handle_vehicle_detect_result task result)).filter
          fun t => t.category = PLATE_DETECT)
    ∧ (∃ c, ((pushedTasks (handle_vehicle_detect_result task result)).filter
          fun t => t.category = VEHICLE_TRACK) = [c]
        ∧ c.payload = Payload.plist result
        ∧ c.meta "payload_ref" = some ((task.meta "payload_ref").getD Val.vnone)
        ∧ c.meta "dependencies" =
            some (Val.vstrs (meta_dependencies task.meta))) := by
  rw [handle_vehicle_detect_pushed]
  rw [List.filter_append, List.filter_append]
  have hplate : ∀ det : Detection,
      (plate_detect_child task det (task.meta "payload_ref")
        (meta_dependencies task.meta)).category = PLATE_DETECT :=
    fun det => (plate_detect_child_fields _ _ _ _).1
  have htrack :
      (vehicle_track_child task result (task.meta "payload_ref")
        (meta_dependencies task.meta)).category = VEHICLE_TRACK :=
    (vehicle_track_child_fields _ _ _ _).1
  have hf1 : (result.map fun det => plate_detect_child task det
      (task.meta "payload_ref") (meta_dependencies task.meta)).filter
      (fun t => t.category = PLATE_DETECT) =
      result.map fun det => plate_detect_child task det
        (task.meta "payload_ref") (meta_dependencies task.meta) := by
    rw [List.filter_eq_self]
    intro t ht
    obtain ⟨det, -, rfl⟩ := List.mem_map.mp ht
    simp [hplate det]
  have hf2 : ([vehicle_track_child task result (task.meta "payload_ref")
      (meta_dependencies task.meta)]).filter
      (fun t => t.category = PLATE_DETECT) = [] := by
    simp [htrack]
  have hf3 : (result.map fun det => plate_detect_child task det
      (task.meta "payload_ref") (meta_dependencies task.meta)).filter
      (fun t => t.category = VEHICLE_TRACK) = [] := by
    rw [List.filter_eq_nil_iff]
    intro t ht
    obtain ⟨det, -, rfl⟩ := List.mem_map.mp ht
    simp [hplate det]
  have hf4 : ([vehicle_track_child task result (task.meta "payload_ref")
      (meta_dependencies task.meta)]).filter
      (fun t => t.category = VEHICLE_TRACK) =
      [vehicle_track_child task result (task.meta "payload_ref")
        (meta_dependencies task.meta)] := by
    simp [htrack]
  rw [hf1, hf2, hf3, hf4]
  refine ⟨by simp, by simp, ?_, ?_⟩
  · rw [List.append_nil]
    rw [List.forall₂_map_right_iff]
    refine List.forall₂_same.mpr fun det _ => ?_
    obtain ⟨-, h1, h2, h3⟩ := plate_detect_child_fields task det
      (task.meta "payload_ref") (meta_dependencies task.meta)
    exact ⟨h1, h2, h3⟩
  · refine ⟨vehicle_track_child task result (task.meta "payload_ref")
      (meta_dependencies task.meta), by simp, ?_, ?_, ?_⟩
    · exact (vehicle_track_child_fields _ _ _ _).2.1
    · exact (vehicle_track_child_fields _ _ _ _).2.2.1
    · exact (vehicle_track_child_fields _ _ _ _).2.2.2

/-! ## Refcount pairing: claim C1 -/

lemma handlerPushes_nil : HandlerPushesRefcounted [] := by
  intro i t hi
  simp at hi

lemma handlerPushes_pair (deps : List String) (c : Task) (tail : List Effect)
    (hc : c.meta "dependencies" = some (Val.vstrs deps))
    (ht : HandlerPushesRefcounted tail) :
    HandlerPushesRefcounted
      (Effect.addRefsE deps :: Effect.pushTaskE c :: tail) := by
  intro i t hi
  match i with
  | 0 => simp at hi
  | 1 =>
      simp only [List.get?_cons_succ, List.get?_cons_zero] at hi
      cases hi
      exact ⟨deps, le_refl 1, by simp, hc⟩
  | (j + 2) =>
      simp only [List.get?_cons_succ] at hi
      obtain ⟨rs, h1, h2, h3⟩ := ht j t hi
      refine ⟨rs, by omega, ?_, h3⟩
      have hj : j + 2 - 1 = (j - 1) + 2 := by omega
      rw [hj]
      simpa using h2

lemma handlerPushes_pairs (deps : List String) (f : Detection → Task)
    (hdeps : ∀ det, (f det).meta "dependencies" = some (Val.vstrs deps))
    (result : List Detection) (tail : List Effect)
    (ht : HandlerPushesRefcounted tail) :
    HandlerPushesRefcounted
      ((result.map fun det => [Effect.addRefsE deps, Effect.pushTaskE (f det)]).flatten
        ++ tail) := by
  induction result with
  | nil => simpa using ht
  | cons det rest ih =>
      simp only [List.map_cons, List.flatten_cons, List.cons_append,
        List.append_assoc, List.nil_append]
      exact handlerPushes_pair deps (f det) _ (hdeps det) ih

lemma countReleases_append (l1 l2 : List Effect) (refs : List String) :
    countReleases (l1 ++ l2) refs = countReleases l1 refs + countReleases l2 refs :=
  List.countP_append _ _ _

lemma countAnyRelease_append (l1 l2 : List Effect) :
    countAnyRelease (l1 ++ l2) = countAnyRelease l1 + countAnyRelease l2 :=
  List.countP_append _ _ _

lemma countReleases_le_any (l : List Effect) (refs : List String) :
    countReleases l refs ≤ countAnyRelease l := by
  refine List.countP_mono_left fun e he hp => ?_
  cases e <;> simp_all

lemma ocr_child_deps (task : Task) (pb : List ℚ) (pr cb : Option Val)
    (deps : List String) :
    (ocr_child task pb pr cb deps).meta "dependencies" =
      some (Val.vstrs deps) := by
  simp [ocr_child, merge_meta]

lemma track_index_child_deps (task : Task) (track : Meta) (pr : Option Val)
    (deps : List String) :
    (track_index_child task track pr deps).meta "dependencies" =
      some (Val.vstrs deps) := by
  simp [track_index_child, merge_meta]

lemma motion_child_deps (task : Task) (track : Meta) (pr : Option Val)
    (deps : List String) :
    (motion_child task track pr deps).meta "dependencies" =
      some (Val.vstrs deps) := by
  simp [motion_child, merge_meta]

lemma plate_smooth_child_deps (task : Task) (text conf : Val)
    (pr cb pbb : Option Val) (deps : List String) :
    (plate_smooth_child task text conf pr cb pbb deps).meta "dependencies" =
      some (Val.vstrs deps) := by
  simp [plate_smooth_child, merge_meta]

lemma vehicles_child_deps (task : Task) (ft conf : Val)
    (pr cb pbb : Option Val) (deps : List String) :
    (vehicles_child task ft conf pr cb pbb deps).meta "dependencies" =
      some (Val.vstrs deps) := by
  simp [vehicles_child, merge_meta]

lemma handle_vehicle_detect_refcounted (task : Task) (result : List Detection) :
    HandlerPushesRefcounted (handle_vehicle_detect_result task result) := by
  unfold handle_vehicle_detect_result
  exact handlerPushes_pairs _ _
    (fun det => (plate_detect_child_fields task det _ _).2.2.2) result _
    (handlerPushes_pair _ _ [] (vehicle_track_child_fields task result _ _).2.2.2
      handlerPushes_nil)

lemma handle_plate_detect_refcounted (task : Task) (result : List Detection) :
    HandlerPushesRefcounted (handle_plate_detect_result task result) := by
  cases result with
  | nil => exact handlerPushes_nil
  | cons d rest =>
      exact handlerPushes_pair _ _ []
        (ocr_child_deps task _ _ _ (meta_dependencies task.meta))
        handlerPushes_nil

lemma handle_vehicle_track_refcounted (task : Task) (result : List Meta) :
    HandlerPushesRefcounted (handle_vehicle_track_result task result) := by
  unfold handle_vehicle_track_result
  dsimp only
  split
  · exact handlerPushes_nil
  · rename_i hne
    clear hne
    induction result with
    | nil => exact handlerPushes_nil
    | cons t rest ih =>
        rw [List.map_cons, List.flatten_cons]
        by_cases hnew : ((t "is_new").getD Val.vnone).truthy = true
        · rw [if_pos hnew]
          simp only [List.cons_append, List.nil_append, List.append_assoc]
          exact handlerPushes_pair _ _ _
            (track_index_child_deps task t _ _)
            (handlerPushes_pair _ _ _ (motion_child_deps task t _ _) ih)
        · rw [if_neg hnew]
          simp only [List.cons_append, List.nil_append]
          exact handlerPushes_pair _ _ _ (motion_child_deps task t _ _) ih

lemma handle_ocr_refcounted (task : Task) (result : Meta) :
    HandlerPushesRefcounted (handle_ocr_result task result) := by
  unfold handle_ocr_result
  dsimp only
  split
  · exact handlerPushes_pair _ _ []
      (plate_smooth_child_deps task _ _ _ _ _ (meta_dependencies task.meta))
      handlerPushes_nil
  · exact handlerPushes_nil

lemma handle_plate_smooth_refcounted (task : Task) (result : Meta) :
    HandlerPushesRefcounted (handle_plate_smooth_result task result) := by
  unfold handle_plate_smooth_result
  dsimp only
  split
  · exact handlerPushes_pair _ _ []
      (vehicles_child_deps task _ _ _ _ _ (meta_dependencies task.meta))
      handlerPushes_nil
  · exact handlerPushes_nil

/-- C1, counterexample: a `VEHICLE_DETECT` task with a non-empty dependency
list is processed by the GPU worker with zero `release_refs` calls — both
on processor success and on processor failure — whereas the claim demands
exactly one release after the task terminates for GPU-lane categories too
(the GPU worker's run loop stores the result in SQLite and never touches
the frame store). -/
theorem C1_counterexample :
    finally_dependencies parent_task.meta = ["v:0"]
    ∧ countAnyRelease (gpu_worker_process_task parent_task false) = 0
    ∧ countAnyRelease (gpu_worker_process_task parent_task true) = 0 := by
  refine ⟨by decide, by decide, by decide⟩

/-- C1 (amended): the pairing invariant holds on the CPU worker — for a
task with non-empty `dependencies`, one processing round emits exactly one
`release_refs(task.meta.dependencies)` regardless of where the try-block
stopped (processor or handler success or exception), provided the
try-block itself emitted no release; the GPU worker emits no release at
all for any task (GPU-lane frames are cleaned up elsewhere); and every
dispatch handler — `VEHICLE_DETECT`, `PLATE_DETECT`, `VEHICLE_TRACK`,
`OCR`, `PLATE_SMOOTH`, and the terminal `FINAL_WRITE` — performs
`add_refs` of a spawned task's dependencies immediately before each of
its pushes. -/
theorem C1_amended_refcount_pairing :
    (∀ (task : Task) (try_effects : List Effect),
        countAnyRelease try_effects = 0 →
        finally_dependencies task.meta ≠ [] →
        countReleases (cpu_worker_process_task task try_effects)
            (finally_dependencies task.meta) = 1
          ∧ countAnyRelease (cpu_worker_process_task task try_effects) = 1)
    ∧ (∀ (task : Task) (processor_raises : Bool),
        countAnyRelease (gpu_worker_process_task task processor_raises) = 0)
    ∧ (∀ (task : Task) (result : List Detection),
        HandlerPushesRefcounted (handle_vehicle_detect_result task result))
    ∧ (∀ (task : Task) (result : List Detection),
        HandlerPushesRefcounted (handle_plate_detect_result task result))
    ∧ (∀ (task : Task) (result : List Meta),
        HandlerPushesRefcounted (handle_vehicle_track_result task result))
    ∧ (∀ (task : Task) (result : Meta),
        HandlerPushesRefcounted (handle_ocr_result task result))
    ∧ (∀ (task : Task) (result : Meta),
        HandlerPushesRefcounted (handle_plate_smooth_result task result))
    ∧ (∀ (task : Task) (result : Meta),
        HandlerPushesRefcounted (handle_final_write_result task result)) := by
  refine ⟨?_, ?_, handle_vehicle_detect_refcounted, handle_plate_detect_refcounted,
    handle_vehicle_track_refcounted, handle_ocr_refcounted,
    handle_plate_smooth_refcounted, fun _ _ => handlerPushes_nil⟩
  · intro task try_effects htry hdeps
    unfold cpu_worker_process_task
    rw [if_neg hdeps]
    constructor
    · rw [countReleases_append]
      have hle := countReleases_le_any try_effects (finally_dependencies task.meta)
      have h1 : countReleases [Effect.releaseRefsE (finally_dependencies task.meta)]
          (finally_dependencies task.meta) = 1 := by
        simp [countReleases]
      omega
    · rw [countAnyRelease_append]
      have h1 : countAnyRelease [Effect.releaseRefsE (finally_dependencies task.meta)] = 1 := by
        simp [countAnyRelease]
      omega
  · intro task b
    cases b <;> rfl

/-- Witness for C1 at a concrete input: processing the parent task on the
CPU worker with an empty try-block trace yields exactly one release of its
dependency list. -/
theorem C1_amended_witness :
    countReleases (cpu_worker_process_task parent_task []) ["v:0"] = 1
    ∧ countAnyRelease (cpu_worker_process_task parent_task []) = 1 := by
  have heq : finally_dependencies parent_task.meta = ["v:0"] := by decide
  have h := C1_amended_refcount_pairing.1 parent_task [] (by decide) (by
    rw [heq]; simp)
  rw [heq] at h
  exact h

/-! ## Video reader per-frame contract: claim C3 -/

lemma push_false_items (cfg : QueueConfig) (st : QueueState) (id : Int)
    (t : Task) (h : (push cfg st id t).1 = false) :
    ∀ c, ((push cfg st id t).2 c).items = (st c).items := by
  intro c
  unfold push at h ⊢
  dsimp only at h ⊢
  split at h
  · rename_i hcond
    rw [if_pos hcond]
    dsimp only
    by_cases hc : c = t.category
    · subst hc; rw [if_pos rfl]
    · rw [if_neg hc]
  · simp at h

/-- C3, counterexample: with the `VEHICLE_DETECT` queue at its hard limit
(limit 1, one task queued), `enqueue_frame` still returns after a single
refused push — the queue keeps exactly its one old item (the frame's task
is dropped, no retry happens) — and the frame's refcount entry is absent
even though its bytes were saved (the reader performs no `add_refs`),
contradicting both the claimed refcount increment and the claimed
retry-until-accepted. -/
theorem C3_counterexample :
    (enqueue_frame cfg_hard1 FrameStoreState.empty
        (push cfg_hard1 QueueState.init 0 dummy_task).2 "v" 0 [9] 1).push_accepted
          = false
    ∧ ((enqueue_frame cfg_hard1 FrameStoreState.empty
          (push cfg_hard1 QueueState.init 0 dummy_task).2 "v" 0 [9] 1).queue
            VEHICLE_DETECT).items.length = 1
    ∧ (enqueue_frame cfg_hard1 FrameStoreState.empty
          (push cfg_hard1 QueueState.init 0 dummy_task).2 "v" 0 [9] 1).fs.counts
            "v:0" = none
    ∧ (enqueue_frame cfg_hard1 FrameStoreState.empty
          (push cfg_hard1 QueueState.init 0 dummy_task).2 "v" 0 [9] 1).fs.disk
            "v:0" = true := by
  refine ⟨by decide, by decide, by decide, by decide⟩

/-- C3 (amended): for every frame, `enqueue_frame` saves the frame bytes
under `<video_id>:<frame_idx>`, leaves the refcount table untouched (no
increment), constructs the `VEHICLE_DETECT` task with
`meta.payload_ref = ref` and `meta.dependencies = [ref]`, and calls `push`
exactly once with its return value discarded — a refused push leaves the
queue's items unchanged and the frame's task is dropped. -/
theorem C3_amended_reader_contract :
    ∀ (cfg : QueueConfig) (fs : FrameStoreState) (qs : QueueState)
      (vid : String) (fidx : Nat) (frame : List Nat) (tid : Int),
      (enqueue_frame cfg fs qs vid fidx frame tid).fs.disk
          (vid ++ ":" ++ toString fidx) = true
      ∧ (enqueue_frame cfg fs qs vid fidx frame tid).fs.counts = fs.counts
      ∧ (enqueue_frame cfg fs qs vid fidx frame tid).task.category = VEHICLE_DETECT
      ∧ (enqueue_frame cfg fs qs vid fidx frame tid).task.meta "payload_ref" =
          some (Val.vstr (vid ++ ":" ++ toString fidx))
      ∧ (enqueue_frame cfg fs qs vid fidx frame tid).task.meta "dependencies" =
          some (Val.vstrs [vid ++ ":" ++ toString fidx])
      ∧ ((enqueue_frame cfg fs qs vid fidx frame tid).push_accepted,
          (enqueue_frame cfg fs qs vid fidx frame tid).queue) =
          push cfg qs tid (enqueue_frame cfg fs qs vid fidx frame tid).task
      ∧ ((enqueue_frame cfg fs qs vid fidx frame tid).push_accepted = false →
          ∀ c, ((enqueue_frame cfg fs qs vid fidx frame tid).queue c).items =
            (qs c).items) := by
  intro cfg fs qs vid fidx frame tid
  refine ⟨?_, rfl, rfl, ?_, ?_, rfl, ?_⟩
  · simp [enqueue_frame, save_frame]
  · simp [enqueue_frame, save_frame]
  · simp [enqueue_frame, save_frame]
  · intro hfalse c
    exact push_false_items cfg qs tid _ hfalse c

/-- Witness for C3 at a concrete input: pushing into an empty queue is
accepted, and the refusal clause is discharged vacuously at an accepted
push; the remaining conjuncts evaluate on the concrete frame. -/
theorem C3_amended_witness :
    (enqueue_frame cfg_hard1 FrameStoreState.empty QueueState.init
        "v" 0 [9] 1).fs.disk "v:0" = true
    ∧ (enqueue_frame cfg_hard1 FrameStoreState.empty QueueState.init
        "v" 0 [9] 1).fs.counts = FrameStoreState.empty.counts
    ∧ (enqueue_frame cfg_hard1 FrameStoreState.empty QueueState.init
        "v" 0 [9] 1).task.meta "payload_ref" = some (Val.vstr "v:0")
    ∧ ((enqueue_frame cfg_hard1 FrameStoreState.empty QueueState.init
          "v" 0 [9] 1).push_accepted = false →
        ∀ c, ((enqueue_frame cfg_hard1 FrameStoreState.empty QueueState.init
            "v" 0 [9] 1).queue c).items = (QueueState.init c).items) := by
  have h := C3_amended_reader_contract cfg_hard1 FrameStoreState.empty
    QueueState.init "v" 0 [9] 1
  exact ⟨h.1, h.2.1, h.2.2.2.1, h.2.2.2.2.2.2⟩

/-! ## Plate smoother threshold: claim C9 -/

lemma process_plate_smooth_fst (cache : PlateCache) (task : Task) :
    (process_plate_smooth cache task).1 = smooth_record cache task := by
  unfold process_plate_smooth
  dsimp only
  split
  · split <;> rfl
  · rfl

lemma all_confs_isSome (l : List (String × Option ℚ))
    (h : ∀ p ∈ l, (p.2).isSome = true) : ∃ g, all_confs l = some g := by
  induction l with
  | nil => exact ⟨[], rfl⟩
  | cons p rest ih =>
      obtain ⟨q, hq⟩ := Option.isSome_iff_exists.mp (h p (List.mem_cons_self _ _))
      obtain ⟨g, hg⟩ := ih fun p' hp' => h p' (List.mem_cons_of_mem _ hp')
      refine ⟨(p.1, q) :: g, ?_⟩
      obtain ⟨s, c⟩ := p
      simp only at hq
      subst hq
      simp [all_confs, hg]

/-- C9: `process_plate_smooth` (with well-formed numeric confidences in the
accumulator, as the pipeline always provides) returns a result whose
`final` is `None` exactly when the `(video_id, track_id)` accumulator
holds fewer than 2 observations after recording the task's text, and whose
`final` is the non-null consensus string `merge_strings` (the
confidence-weighted per-character vote over the observations padded to the
maximum length) exactly when it holds 2 or more. -/
theorem C9_plate_smooth_threshold :
    ∀ (cache : PlateCache) (task : Task),
      (∀ p ∈ (process_plate_smooth cache task).1 (task.video_id, task.track_id),
          (p.2).isSome = true) →
      ∃ res, (process_plate_smooth cache task).2 = some res
        ∧ (res.final = none ↔
            ((process_plate_smooth cache task).1
              (task.video_id, task.track_id)).length < 2)
        ∧ (∀ s, res.final = some s →
            ∃ g, all_confs ((process_plate_smooth cache task).1
                (task.video_id, task.track_id)) = some g
              ∧ s = merge_strings g) := by
  intro cache task h
  rw [process_plate_smooth_fst] at h ⊢
  show ∃ res, (process_plate_smooth cache task).2 = some res ∧ _
  unfold process_plate_smooth
  dsimp only
  by_cases hlen : 2 ≤ (smooth_record cache task (task.video_id, task.track_id)).length
  · rw [if_pos hlen]
    obtain ⟨g, hg⟩ := all_confs_isSome _ h
    rw [hg]
    refine ⟨_, rfl, ?_, ?_⟩
    · simp only
      constructor
      · intro habs; exact absurd habs (by simp)
      · intro hlt; omega
    · intro s hs
      simp only at hs
      cases hs
      exact ⟨g, rfl, rfl⟩
  · rw [if_neg hlen]
    refine ⟨_, rfl, ?_, ?_⟩
    · simp only
      constructor
      · intro _; omega
      · intro _; trivial
    · intro s hs
      simp at hs

/-- Witness for C9 at a concrete input: feeding a single OCR observation
`{text: "XY", conf: 0.7}` into the empty accumulator yields one recorded
observation, and the theorem instantiates to a result whose `final` is
`None` (accumulator length 1 < 2). -/
theorem C9_witness :
    (∀ p ∈ (process_plate_smooth PlateCache.empty smooth_task_XY).1
        (smooth_task_XY.video_id, smooth_task_XY.track_id), (p.2).isSome = true)
    ∧ ((process_plate_smooth PlateCache.empty smooth_task_XY).1
        (smooth_task_XY.video_id, smooth_task_XY.track_id)).length = 1
    ∧ ∃ res, (process_plate_smooth PlateCache.empty smooth_task_XY).2 = some res
        ∧ (res.final = none ↔
            ((process_plate_smooth PlateCache.empty smooth_task_XY).1
              (smooth_task_XY.video_id, smooth_task_XY.track_id)).length < 2)
        ∧ (∀ s, res.final = some s →
            ∃ g, all_confs ((process_plate_smooth PlateCache.empty smooth_task_XY).1
                (smooth_task_XY.video_id, smooth_task_XY.track_id)) = some g
              ∧ s = merge_strings g) :=
  ⟨by decide, by decide,
   C9_plate_smooth_threshold PlateCache.empty smooth_task_XY (by decide)⟩

end Dashcam
